import Mathlib

/-!
XPDFRenderer (OpenBoard, `src/pdf/XPDFRenderer.cpp`)

A shallow embedding of the PDF page renderer: the process-wide
`globalParams` / `sInstancesCount` life cycle, the page queries, and both
`render` variants (with and without `XPDFRENDERER_CACHE_ZOOM_IMAGE`).

Conventions of the embedding
* `qreal` / `double` values are rationals (`ℚ`): the constants of the source
  (`2.5`, `5`, `10.0`, `3.0`, `72.0`, `1.0`) are rationals, and the arithmetic and the
  comparisons of the source are those of `ℚ`, without rounding. The static counter
  `sInstancesCount` is an integer without wrap-around.
* Objects of the external libraries (Poppler/XPDF, Qt) are not interpreted.
  Heap objects created with `new` are numbered by a fresh-id allocator and every
  call into the libraries that has an effect is appended to a trace.
* A `none` result stands for undefined behaviour of the C++ program (indexing
  `m_cache` out of range, dereferencing a null pointer) or for a failed
  `Q_ASSERT` in a debug build.
-/

namespace XPDFRenderer

/-! ## External library objects -/

/-- A PDF object of the library (`Object`), as far as `title()` inspects it. -/
inductive Object where
  | null
  | string (s : String)
  | dict (entries : List (String × Object))
  | other

/-- The test `Object::isDict()`. -/
def Object.isDict : Object → Bool
  | .dict _ => true
  | _ => false

/-- The test `Object::isString()`. -/
def Object.isString : Object → Bool
  | .string _ => true
  | _ => false

/-- The call `Dict::lookup(key)`: the value stored under `key`, the null object when absent. -/
def dictLookup (entries : List (String × Object)) (key : String) : Object :=
  match entries.find? (fun e => e.1 == key) with
  | some e => e.2
  | none => Object.null

/-- What the library answers for an opened `PDFDoc`. -/
structure PDFDoc where
  isOk : Bool
  getNumPages : Int
  getDocInfo : Object
  getPageRotate : Int → Int
  getPageCropWidth : Int → ℚ
  getPageCropHeight : Int → ℚ

/-- A Qt `QTransform`: the 3x3 matrix `m11 .. m33` (`dx = m31`, `dy = m32`). -/
structure QTransform where
  m11 : ℚ
  m12 : ℚ
  m13 : ℚ
  m21 : ℚ
  m22 : ℚ
  m23 : ℚ
  m31 : ℚ
  m32 : ℚ
  m33 : ℚ
  deriving DecidableEq, Repr

/-- The identity transform. -/
def QTransform.identity : QTransform :=
  { m11 := 1, m12 := 0, m13 := 0, m21 := 0, m22 := 1, m23 := 0, m31 := 0, m32 := 0, m33 := 1 }

/-- The accessor `QTransform::dx()`. -/
def QTransform.dx (t : QTransform) : ℚ := t.m31

/-- The accessor `QTransform::dy()`. -/
def QTransform.dy (t : QTransform) : ℚ := t.m32

/-- The member `QTransform &QTransform::scale(sx, sy)` of Qt: it scales the object it is
called on IN PLACE (first row by `sx`, second row by `sy`) and returns a reference to that
same object. The value given here is the new value of the object, which is also what the
returned reference denotes. -/
def QTransform.scale (t : QTransform) (sx sy : ℚ) : QTransform :=
  { t with m11 := t.m11 * sx, m12 := t.m12 * sx, m13 := t.m13 * sx,
           m21 := t.m21 * sy, m22 := t.m22 * sy, m23 := t.m23 * sy }

/-- A `QRectF`. -/
structure QRectF where
  x : ℚ
  y : ℚ
  width : ℚ
  height : ℚ
  deriving DecidableEq, Repr

/-- The test `QRectF::isNull()`: width and height are both zero. -/
def QRectF.isNull (b : QRectF) : Bool := b.width == 0 && b.height == 0

/-- A `QSizeF`. -/
structure QSizeF where
  width : ℚ
  height : ℚ
  deriving DecidableEq, Repr

/-- A `QImage`: the null image `QImage()`, or a view on the pixel buffer of the
bitmap owned by rasterization backend number `bitmap` (no copy of the pixels). -/
inductive QImage where
  | null
  | view (bitmap : Nat)
  deriving DecidableEq, Repr

/-- One `drawImage` call as the painter saw it. -/
structure DrawCall where
  transform : QTransform
  x : ℚ
  y : ℚ
  image : QImage
  deriving DecidableEq, Repr

/-- The `QPainter`: its current world transform and the draw calls issued so far. -/
structure QPainter where
  worldTransform : QTransform
  drawn : List DrawCall
  deriving DecidableEq, Repr

/-- The call `QPainter::setWorldTransform(t)`. -/
def QPainter.setWorldTransform (p : QPainter) (t : QTransform) : QPainter :=
  { p with worldTransform := t }

/-- The call `QPainter::resetTransform()`. -/
def QPainter.resetTransform (p : QPainter) : QPainter :=
  { p with worldTransform := QTransform.identity }

/-- The call `QPainter::drawImage(QPointF(x, y), image)`. -/
def QPainter.drawImage (p : QPainter) (x y : ℚ) (image : QImage) : QPainter :=
  { p with drawn := p.drawn ++ [{ transform := p.worldTransform, x := x, y := y, image := image }] }

/-- The Qt helper `qFuzzyCompare(double, double)`. -/
def qFuzzyCompare (p1 p2 : ℚ) : Bool :=
  decide (|p1 - p2| * 1000000000000 ≤ min |p1| |p2|)

/-! ## Process state and trace -/

/-- Effectful calls into the libraries, in the order they happen. -/
inductive Event where
  | newGlobalParams (h : Nat)
  | setupBaseFonts (h : Nat) (dir : String)
  | deleteGlobalParams (h : Nat)
  | newPDFDoc (filename : String)
  | deletePDFDoc
  | newSplashOutputDev (h : Nat)
  | deleteSplashOutputDev (h : Nat)
  | startDoc (h : Nat)
  | displayPage (h : Nat) (page : Int) (hDPI vDPI : ℚ) (rotate : Int)
      (useMediaBox crop printing : Bool)
  | displayPageSlice (h : Nat) (page : Int) (hDPI vDPI : ℚ) (rotate : Int)
      (useMediaBox crop printing : Bool) (sliceX sliceY sliceW sliceH : ℚ)
  deriving DecidableEq, Repr

/-- The state shared by the whole process: the library global `globalParams`
(`none` is the null pointer), the static `sInstancesCount`, the allocator of
object ids and the trace of library calls. -/
structure World where
  globalParams : Option Nat
  sInstancesCount : Int
  nextId : Nat
  trace : List Event
  deriving DecidableEq, Repr

/-- Append one event to the trace. -/
def World.emit (w : World) (e : Event) : World :=
  { w with trace := w.trace ++ [e] }

/-- The build configuration and the environment of the process: the preprocessor switches
and what they select. `cacheZoomImage` is `XPDFRENDERER_CACHE_ZOOM_IMAGE`, `qtDebug` tells
whether `Q_ASSERT` is active (it expands to nothing otherwise), `sRatioZoomRendering` is the
static array of that name, `noPageNumber` is the page number the `TypeCacheData`
constructor of the header records in an empty slot, `fontsDir` is the value of
`applicationResourcesDirectory() + "/" + "fonts"` and `openFile` is what `new PDFDoc`
makes of a file name. -/
structure Build where
  cacheZoomImage : Bool
  qtDebug : Bool
  sRatioZoomRendering : List ℚ
  noPageNumber : Int
  fontsDir : String
  openFile : String → PDFDoc

/-- The constant `NbrZoomCache`, the declared length of `sRatioZoomRendering`. -/
def Build.NbrZoomCache (cfg : Build) : Nat := cfg.sRatioZoomRendering.length

/-! ## Renderer state -/

/-- One zoom cache slot, `TypeCacheData`. -/
structure TypeCacheData where
  splash : Option Nat
  cachedPageNumber : Int
  cachedImage : QImage
  splashBitmap : Option Nat
  ratio : ℚ
  deriving DecidableEq, Repr

/-- The members of an `XPDFRenderer` object. `mSplash` and `mpSplashBitmap` exist only
without `XPDFRENDERER_CACHE_ZOOM_IMAGE`, `m_cache` only with it. -/
structure Renderer where
  mDocument : Option PDFDoc
  dpiForRendering : ℚ
  mSliceX : ℚ
  mSliceY : ℚ
  mSplash : Option Nat
  mpSplashBitmap : Option Nat
  m_cache : List TypeCacheData

/-! ## Cache slot selection (the scan at the head of the caching `render`) -/

/-- The loop `for (; zoomIndex < NbrZoomCache && !foundIndex;)` of `render`, from the
state `(zoomIndex, foundIndex)`; the result is the state on exit. -/
def zoomLoop (NbrZoomCache : Nat) (m_cache : List TypeCacheData) (xscale : ℚ)
    (zoomIndex : Nat) (foundIndex : Bool) : Option (Nat × Bool) :=
  if _h : zoomIndex < NbrZoomCache ∧ foundIndex = false then
    match m_cache[zoomIndex]? with
    | none => none
    | some c =>
      if xscale ≤ c.ratio then zoomLoop NbrZoomCache m_cache xscale zoomIndex true
      else zoomLoop NbrZoomCache m_cache xscale (zoomIndex + 1) false
  else some (zoomIndex, foundIndex)
termination_by (NbrZoomCache - zoomIndex) + (if foundIndex then 0 else 1)
decreasing_by
  all_goals simp_wf
  all_goals simp_all
  all_goals omega

/-- The slot index `render` ends up with: the loop from `(0, false)` followed by
`if (!foundIndex) zoomIndex--;`. -/
def selectZoomIndex (NbrZoomCache : Nat) (m_cache : List TypeCacheData) (xscale : ℚ) :
    Option Int :=
  match zoomLoop NbrZoomCache m_cache xscale 0 false with
  | none => none
  | some (zoomIndex, foundIndex) =>
    if foundIndex then some (zoomIndex : Int) else some ((zoomIndex : Int) - 1)

/-! ## Construction and destruction -/

/-- Modelled from the spec: the constructor `TypeCacheData(ratio)` is declared in
`XPDFRenderer.h`, which is not part of the sources at hand. A slot starts empty: no
backend handle, no bitmap, no page number, and the ratio it was built for. -/
def TypeCacheData.init (cfg : Build) (ratio : ℚ) : TypeCacheData :=
  { splash := none, cachedPageNumber := cfg.noPageNumber, cachedImage := QImage.null,
    splashBitmap := none, ratio := ratio }

/-- The constructor `XPDFRenderer::XPDFRenderer(filename, importingFile)`. `raw` is the
object before the constructor runs: the members the constructor does not set
(`dpiForRendering`, `mSliceX`, `mSliceY`, `mpSplashBitmap`) keep the values of `raw`. -/
def construct (cfg : Build) (raw : Renderer) (filename : String) (_importingFile : Bool)
    (w : World) : Renderer × World :=
  let r0 : Renderer :=
    if cfg.cacheZoomImage then { raw with mDocument := none, m_cache := [] }
    else { raw with mSplash := none, mDocument := none, m_cache := [] }
  let r1 : Renderer :=
    if cfg.cacheZoomImage then
      { r0 with m_cache := r0.m_cache ++ cfg.sRatioZoomRendering.map (TypeCacheData.init cfg) }
    else r0
  let w1 : World :=
    match w.globalParams with
    | none =>
      let h := w.nextId
      (({ w with globalParams := some h, nextId := h + 1 }).emit (Event.newGlobalParams h)).emit
        (Event.setupBaseFonts h cfg.fontsDir)
    | some _ => w
  let r2 : Renderer := { r1 with mDocument := some (cfg.openFile filename) }
  let w2 := w1.emit (Event.newPDFDoc filename)
  (r2, { w2 with sInstancesCount := w2.sInstancesCount + 1 })

/-- The loop of the destructor over `m_cache`: every slot that holds a backend drops its
image first, then deletes the backend. -/
def releaseCache : List TypeCacheData → World → List TypeCacheData × World
  | [], w => ([], w)
  | cacheData :: rest, w =>
    match cacheData.splash with
    | some h =>
      let (rest1, w1) := releaseCache rest (w.emit (Event.deleteSplashOutputDev h))
      ({ cacheData with cachedImage := QImage.null, splash := none } :: rest1, w1)
    | none =>
      let (rest1, w1) := releaseCache rest w
      (cacheData :: rest1, w1)

/-- The destructor `XPDFRenderer::~XPDFRenderer()`. -/
def destroy (cfg : Build) (r : Renderer) (w : World) : World :=
  let w1 : World := if cfg.cacheZoomImage then (releaseCache r.m_cache w).2 else w
  let w2 : World :=
    match r.mDocument with
    | some _ => { w1.emit Event.deletePDFDoc with sInstancesCount := w1.sInstancesCount - 1 }
    | none => w1
  match w2.globalParams with
  | some h =>
    if w2.sInstancesCount = 0 then
      { w2.emit (Event.deleteGlobalParams h) with globalParams := none }
    else w2
  | none => w2

/-! ## Queries -/

/-- The member `XPDFRenderer::isValid()`. -/
def isValid (r : Renderer) : Bool :=
  match r.mDocument with
  | some d => d.isOk
  | none => false

/-- The member `XPDFRenderer::pageCount()`. -/
def pageCount (r : Renderer) : Option Int :=
  if isValid r then do
    let d ← r.mDocument
    pure d.getNumPages
  else pure 0

/-- The member `XPDFRenderer::title()`; `QString()` is the empty string. -/
def title (r : Renderer) : Option String :=
  if isValid r then do
    let d ← r.mDocument
    let pdfInfo := d.getDocInfo
    match pdfInfo with
    | Object.dict infoDict =>
      let title := dictLookup infoDict "Title"
      match title with
      | Object.string s => pure s
      | _ => pure ""
    | _ => pure ""
  else pure ""

/-- The member `XPDFRenderer::pageSizeF(pageNumber)`. -/
def pageSizeF (r : Renderer) (pageNumber : Int) : Option QSizeF :=
  if isValid r then do
    let d ← r.mDocument
    let rotate := d.getPageRotate pageNumber
    let cropWidth := d.getPageCropWidth pageNumber * r.dpiForRendering / 72
    let cropHeight := d.getPageCropHeight pageNumber * r.dpiForRendering / 72
    if rotate = 90 ∨ rotate = 270 then
      pure { width := cropHeight, height := cropWidth }
    else
      pure { width := cropWidth, height := cropHeight }
  else pure { width := 0, height := 0 }

/-- The member `XPDFRenderer::pageRotation(pageNumber)`. -/
def pageRotation (r : Renderer) (pageNumber : Int) : Int :=
  match r.mDocument with
  | some d => d.getPageRotate pageNumber
  | none => 0

/-! ## Rendering without `XPDFRENDERER_CACHE_ZOOM_IMAGE` -/

namespace NoCache

/-- The member `createPDFImage(pageNumber, xscale, yscale, bounds)`; the result carries the
image the returned pointer designates. -/
def createPDFImage (r : Renderer) (pageNumber : Int) (xscale yscale : ℚ) (bounds : QRectF)
    (w : World) : Option (Renderer × World × QImage) := do
  let (r1, w1) ←
    if isValid r then
      let w1 : World :=
        match r.mSplash with
        | some h => w.emit (Event.deleteSplashOutputDev h)
        | none => w
      let h := w1.nextId
      let w2 := ({ w1 with nextId := h + 1 }).emit (Event.newSplashOutputDev h)
      let r1 : Renderer := { r with mSplash := some h }
      let w3 := w2.emit (Event.startDoc h)
      let r2 : Renderer := { r1 with mSliceX := 0, mSliceY := 0 }
      if bounds.isNull then
        let w4 := w3.emit (Event.displayPage h pageNumber (r2.dpiForRendering * xscale)
          (r2.dpiForRendering * yscale) 0 false true false)
        some ({ r2 with mpSplashBitmap := some h }, w4)
      else
        let r3 : Renderer := { r2 with mSliceX := bounds.x * xscale, mSliceY := bounds.y * yscale }
        let sliceW := bounds.width * xscale
        let sliceH := bounds.height * yscale
        let w4 := w3.emit (Event.displayPageSlice h pageNumber (r3.dpiForRendering * xscale)
          (r3.dpiForRendering * yscale) 0 false true false r3.mSliceX r3.mSliceY sliceW sliceH)
        some ({ r3 with mpSplashBitmap := some h }, w4)
    else some (r, w)
  let bitmap ← r1.mpSplashBitmap
  pure (r1, w1, QImage.view bitmap)

/-- The member `render(p, pageNumber, bounds)`. -/
def render (r : Renderer) (p : QPainter) (pageNumber : Int) (bounds : QRectF) (w : World) :
    Option (Renderer × QPainter × World) :=
  if isValid r then do
    let xscale := p.worldTransform.m11
    let yscale := p.worldTransform.m22
    let (r1, w1, pdfImage) ← createPDFImage r pageNumber xscale yscale bounds w
    let savedTransform := p.worldTransform
    let p1 := p.resetTransform
    let p2 := p1.drawImage (savedTransform.dx + r1.mSliceX) (savedTransform.dy + r1.mSliceY) pdfImage
    let p3 := p2.setWorldTransform savedTransform
    pure (r1, p3, w1)
  else pure (r, p, w)

end NoCache

/-! ## Rendering with `XPDFRENDERER_CACHE_ZOOM_IMAGE` -/

namespace ZoomCache

/-- The member `createPDFImage(pageNumber, cacheData)`. `cacheData` is passed by reference
in the source: the slot in the result is its value on return, and the image returned by
reference is the `cachedImage` of that slot. -/
def createPDFImage (r : Renderer) (pageNumber : Int) (cacheData : TypeCacheData) (w : World) :
    Option (Renderer × TypeCacheData × World) :=
  if isValid r then do
    let requireUpdateImage : Bool :=
      (pageNumber != cacheData.cachedPageNumber) || (cacheData.splash == none)
    let (r1, c1, w1) : Renderer × TypeCacheData × World :=
      if requireUpdateImage then
        let (c1, w1) : TypeCacheData × World :=
          match cacheData.splash with
          | some h =>
            ({ cacheData with cachedImage := QImage.null }, w.emit (Event.deleteSplashOutputDev h))
          | none => (cacheData, w)
        let h := w1.nextId
        let w2 := ({ w1 with nextId := h + 1 }).emit (Event.newSplashOutputDev h)
        let c2 : TypeCacheData := { c1 with splash := some h, cachedPageNumber := pageNumber }
        let w3 := w2.emit (Event.startDoc h)
        let r1 : Renderer := { r with mSliceX := 0, mSliceY := 0 }
        let w4 := w3.emit (Event.displayPage h pageNumber (r1.dpiForRendering * c2.ratio)
          (r1.dpiForRendering * c2.ratio) 0 false true false)
        (r1, { c2 with splashBitmap := some h }, w4)
      else (r, cacheData, w)
    let bitmap ← c1.splashBitmap
    pure (r1, { c1 with cachedImage := QImage.view bitmap }, w1)
  else pure (r, { cacheData with cachedImage := QImage.null }, w)

/-- The two `Q_ASSERT`s of `render`: they abort a debug build and are absent otherwise. -/
def assertsPass (cfg : Build) (xscale yscale : ℚ) : Bool :=
  !cfg.qtDebug || (qFuzzyCompare xscale yscale && decide (xscale > 0))

/-- The member `render(p, pageNumber, bounds)`. -/
def render (cfg : Build) (r : Renderer) (p : QPainter) (pageNumber : Int) (_bounds : QRectF)
    (w : World) : Option (Renderer × QPainter × World) :=
  if isValid r then do
    let xscale := p.worldTransform.m11
    let yscale := p.worldTransform.m22
    if !assertsPass cfg xscale yscale then none
    let zoomIndex ← selectZoomIndex cfg.NbrZoomCache r.m_cache xscale
    if zoomIndex < 0 then none
    let cacheData ← r.m_cache[zoomIndex.toNat]?
    let (r1, cacheData1, w1) ← createPDFImage r pageNumber cacheData w
    let r2 : Renderer := { r1 with m_cache := r1.m_cache.set zoomIndex.toNat cacheData1 }
    let pdfImage := cacheData1.cachedImage
    let savedTransform := p.worldTransform
    let ratioDifferenceBetweenWorldAndImage : ℚ := 1 / cacheData1.ratio
    -- `scale` works in place: from here on `savedTransform` holds the scaled matrix
    let savedTransform := savedTransform.scale ratioDifferenceBetweenWorldAndImage
      ratioDifferenceBetweenWorldAndImage
    let newTransform := savedTransform
    let p1 := p.setWorldTransform newTransform
    let p2 := p1.drawImage r2.mSliceX r2.mSliceY pdfImage
    let p3 := p2.setWorldTransform savedTransform
    pure (r2, p3, w1)
  else pure (r, p, w)

end ZoomCache

/-- The member `XPDFRenderer::render` of the build `cfg`. -/
def render (cfg : Build) (r : Renderer) (p : QPainter) (pageNumber : Int) (bounds : QRectF)
    (w : World) : Option (Renderer × QPainter × World) :=
  if cfg.cacheZoomImage then ZoomCache.render cfg r p pageNumber bounds w
  else NoCache.render r p pageNumber bounds w

/-! ## Sequential histories of constructions and destructions -/

/-- The process as the life-cycle claims see it: the shared state and the renderer objects
that are alive, oldest first. -/
structure Sys where
  world : World
  live : List Renderer

/-- One life-cycle operation: construct a renderer, or destroy the live renderer at
position `i`. -/
inductive Op where
  | construct (raw : Renderer) (filename : String) (importingFile : Bool)
  | destroy (i : Nat)

/-- Perform one operation; `none` when the operation asks to destroy an object that is
not alive. -/
def step (cfg : Build) (s : Sys) : Op → Option Sys
  | Op.construct raw filename importingFile =>
    let (r, w) := construct cfg raw filename importingFile s.world
    some { world := w, live := s.live ++ [r] }
  | Op.destroy i =>
    match s.live[i]? with
    | some r => some { world := destroy cfg r s.world, live := s.live.eraseIdx i }
    | none => none

/-- Perform a sequence of operations from left to right. -/
def run (cfg : Build) : Sys → List Op → Option Sys
  | s, [] => some s
  | s, op :: ops =>
    match step cfg s op with
    | some s1 => run cfg s1 ops
    | none => none

/-- The process before any renderer exists: `globalParams` is null, the counter is 0. -/
def Sys.initial : Sys :=
  { world := { globalParams := none, sInstancesCount := 0, nextId := 0, trace := [] }, live := [] }

/-- Number of `GlobalParams` objects created in a trace. -/
def createdGlobalParams (t : List Event) : Nat :=
  t.countP (fun e => match e with | Event.newGlobalParams _ => true | _ => false)

/-- Number of `GlobalParams` objects released in a trace. -/
def releasedGlobalParams (t : List Event) : Nat :=
  t.countP (fun e => match e with | Event.deleteGlobalParams _ => true | _ => false)

/-- Number of rasterization backends (`SplashOutputDev`) created in a trace. -/
def createdBackends (t : List Event) : Nat :=
  t.countP (fun e => match e with | Event.newSplashOutputDev _ => true | _ => false)

/-- Number of rasterization backends deleted in a trace. -/
def releasedBackends (t : List Event) : Nat :=
  t.countP (fun e => match e with | Event.deleteSplashOutputDev _ => true | _ => false)

/-- Number of page rasterizations (`displayPage` / `displayPageSlice`) in a trace. -/
def rasterizations (t : List Event) : Nat :=
  t.countP (fun e => match e with
    | Event.displayPage _ _ _ _ _ _ _ _ => true
    | Event.displayPageSlice _ _ _ _ _ _ _ _ _ _ _ _ => true
    | _ => false)

/-- Effect of one event on the set of `GlobalParams` objects that exist. -/
def aliveStep (alive : List Nat) : Event → List Nat
  | Event.newGlobalParams h => alive ++ [h]
  | Event.deleteGlobalParams h => alive.erase h
  | _ => alive

/-- The `GlobalParams` objects that exist after a trace: created and not yet released. -/
def aliveGlobalParams (t : List Event) : List Nat := t.foldl aliveStep []

/-- The backend deletions the destructor loop performs on a cache. -/
def releaseEvents (m_cache : List TypeCacheData) : List Event :=
  m_cache.filterMap (fun cacheData => cacheData.splash.map Event.deleteSplashOutputDev)

/-- Consistency of a cache slot: a slot that holds a backend also holds the bitmap it took
from it. Every slot of a constructed renderer is consistent, and `render` keeps it so. -/
def slotConsistent (c : TypeCacheData) : Prop := c.splash ≠ none → c.splashBitmap ≠ none

/-- An event that creates or releases a `GlobalParams` object. -/
def Event.touchesGlobalParams : Event → Bool
  | Event.newGlobalParams _ => true
  | Event.deleteGlobalParams _ => true
  | _ => false

/-- A destruction order for `n` live renderers: each entry is the position, among the
renderers still alive at that moment, of the one to destroy next. -/
def validDestroyOrder : Nat → List Nat → Bool
  | _, [] => true
  | n, i :: rest => decide (i < n) && validDestroyOrder (n - 1) rest

/-- The invariant of the life cycle: the counter is the number of live renderers, every
live renderer owns a document handle, the `GlobalParams` objects in existence are exactly
the one `globalParams` points to, it is non-null exactly while some renderer is alive, and
every creation but the current one has been matched by a release. -/
def Sys.Inv (s : Sys) : Prop :=
  s.world.sInstancesCount = (s.live.length : Int) ∧
  (∀ r ∈ s.live, r.mDocument ≠ none) ∧
  aliveGlobalParams s.world.trace = s.world.globalParams.toList ∧
  (s.world.globalParams ≠ none ↔ s.live ≠ []) ∧
  createdGlobalParams s.world.trace
    = releasedGlobalParams s.world.trace + s.world.globalParams.toList.length

/-- The construction operations for a list of constructor arguments. -/
def constructAll (cs : List (Renderer × String × Bool)) : List Op :=
  cs.map (fun c => Op.construct c.1 c.2.1 c.2.2)

/-- The destruction operations for a destruction order. -/
def destroyAll (ds : List Nat) : List Op := ds.map Op.destroy

/-! ## Concrete data used to instantiate the theorems -/

/-- A healthy three-page document; page 2 is declared rotated by 90 degrees. -/
def sampleDoc : PDFDoc :=
  { isOk := true, getNumPages := 3,
    getDocInfo := Object.dict [("Title", Object.string "Board")],
    getPageRotate := fun n => if n = 2 then 90 else 0,
    getPageCropWidth := fun _ => 595, getPageCropHeight := fun _ => 842 }

/-- A document handle that exists but reports not-ok, and still answers a rotation query. -/
def brokenDoc : PDFDoc :=
  { isOk := false, getNumPages := 3,
    getDocInfo := Object.dict [("Title", Object.string "Board")],
    getPageRotate := fun _ => 90,
    getPageCropWidth := fun _ => 595, getPageCropHeight := fun _ => 842 }

/-- The caching build without `XPDFRENDERER_CACHE_ZOOM_WITH_LOSS`: ratios 2.5, 5, 10. -/
def sampleBuild : Build :=
  { cacheZoomImage := true, qtDebug := true, sRatioZoomRendering := [2.5, 5, 10],
    noPageNumber := -1, fontsDir := "fonts", openFile := fun _ => sampleDoc }

/-- The three empty slots the constructor makes in `sampleBuild`. -/
def sampleCache : List TypeCacheData :=
  sampleBuild.sRatioZoomRendering.map (TypeCacheData.init sampleBuild)

/-- The memory of a renderer object before its constructor runs, at 72 dpi. -/
def sampleRaw : Renderer :=
  { mDocument := none, dpiForRendering := 72, mSliceX := 0, mSliceY := 0, mSplash := none,
    mpSplashBitmap := none, m_cache := [] }

/-- A renderer whose document handle exists but is not ok (an unparsable file). -/
def brokenRenderer : Renderer := { sampleRaw with mDocument := some brokenDoc }

/-- A renderer without any document handle. -/
def emptyRenderer : Renderer := sampleRaw

/-- The first renderer of a process, constructed in `sampleBuild`. -/
def sampleRenderer : Renderer :=
  (construct sampleBuild sampleRaw "board.pdf" false Sys.initial.world).1

/-- The shared state right after `sampleRenderer` was constructed. -/
def sampleWorld : World :=
  (construct sampleBuild sampleRaw "board.pdf" false Sys.initial.world).2

/-- A painter with the identity transform (uniform scale 1) that has drawn nothing. -/
def identityPainter : QPainter := { worldTransform := QTransform.identity, drawn := [] }

/-- A painter with uniform scale `s` and no translation that has drawn nothing. -/
def scaledPainter (s : ℚ) : QPainter :=
  { worldTransform := { QTransform.identity with m11 := s, m22 := s }, drawn := [] }

/-- Constructor arguments for three renderers. -/
def threeRenderers : List (Renderer × String × Bool) :=
  [(sampleRaw, "a.pdf", false), (sampleRaw, "b.pdf", true), (sampleRaw, "c.pdf", false)]

/-- A history that interleaves constructions and destructions and ends with one renderer
alive: two constructions, the older renderer destroyed, a third construction, then the
youngest destroyed. -/
def sampleHistory : List Op :=
  [Op.construct sampleRaw "a.pdf" false, Op.construct sampleRaw "b.pdf" false, Op.destroy 0,
   Op.construct sampleRaw "c.pdf" false, Op.destroy 1]

/-- The null rectangle, as passed for a full-page render. -/
def nullBounds : QRectF := { x := 0, y := 0, width := 0, height := 0 }

/-- The slot of ratio 5 once backend 1 has rasterized page 1 into it. -/
def warmSlot : TypeCacheData :=
  { splash := some 1, cachedPageNumber := 1, cachedImage := QImage.view 1,
    splashBitmap := some 1, ratio := 5 }

/-- The renderer `sampleRenderer` after one `render` of page 1 at scale 4. -/
def warmRenderer : Renderer :=
  { sampleRenderer with
    m_cache := [TypeCacheData.init sampleBuild 2.5, warmSlot, TypeCacheData.init sampleBuild 10] }

/-- The shared state after that first `render`. -/
def warmWorld : World :=
  { globalParams := some 0, sInstancesCount := 1, nextId := 2,
    trace := [Event.newGlobalParams 0, Event.setupBaseFonts 0 "fonts",
      Event.newPDFDoc "board.pdf", Event.newSplashOutputDev 1, Event.startDoc 1,
      Event.displayPage 1 1 360 360 0 false true false] }

/-! ## The slot scan -/

theorem zoomLoop_found (N : Nat) (m_cache : List TypeCacheData) (xscale : ℚ) (i : Nat) :
    zoomLoop N m_cache xscale i true = some (i, true) := by
  rw [zoomLoop]
  simp

theorem zoomLoop_done (N : Nat) (m_cache : List TypeCacheData) (xscale : ℚ) (i : Nat)
    (h : N ≤ i) : zoomLoop N m_cache xscale i false = some (i, false) := by
  rw [zoomLoop]
  simp [Nat.not_lt.mpr h]

theorem zoomLoop_hit (N : Nat) (m_cache : List TypeCacheData) (xscale : ℚ) (i : Nat)
    (c : TypeCacheData) (h : i < N) (hc : m_cache[i]? = some c) (hx : xscale ≤ c.ratio) :
    zoomLoop N m_cache xscale i false = some (i, true) := by
  rw [zoomLoop]
  simp [h, hc, hx, zoomLoop_found]

theorem zoomLoop_miss (N : Nat) (m_cache : List TypeCacheData) (xscale : ℚ) (i : Nat)
    (c : TypeCacheData) (h : i < N) (hc : m_cache[i]? = some c) (hx : ¬ xscale ≤ c.ratio) :
    zoomLoop N m_cache xscale i false = zoomLoop N m_cache xscale (i + 1) false := by
  rw [zoomLoop]
  simp [h, hc, hx]

/-- One iteration of the scan, in a form fit for evaluation on concrete caches. -/
theorem zoomLoop_unfold (N : Nat) (m_cache : List TypeCacheData) (xscale : ℚ) (i : Nat) :
    zoomLoop N m_cache xscale i false =
      if i < N then
        match m_cache[i]? with
        | none => none
        | some c => if xscale ≤ c.ratio then some (i, true)
                    else zoomLoop N m_cache xscale (i + 1) false
      else some (i, false) := by
  rw [zoomLoop]
  by_cases h : i < N
  · simp only [h, true_and, dite_true, if_true]
    cases m_cache[i]? with
    | none => rfl
    | some c => simp [zoomLoop_found]
  · simp [h]

/-- The scan from position `i`: it stops at the first slot from `i` on whose ratio is at
least `xscale`, or runs off the end. -/
theorem zoomLoop_spec (m_cache : List TypeCacheData) (xscale : ℚ) :
    ∀ (k i : Nat), m_cache.length - i = k → i ≤ m_cache.length →
      ∃ (j : Nat) (b : Bool), zoomLoop m_cache.length m_cache xscale i false = some (j, b) ∧
        i ≤ j ∧ j ≤ m_cache.length ∧
        (∀ (m : Nat) (hm : m < m_cache.length), i ≤ m → m < j → ¬ xscale ≤ m_cache[m].ratio) ∧
        (b = true → ∃ hj : j < m_cache.length, xscale ≤ m_cache[j].ratio) ∧
        (b = false → j = m_cache.length) := by
  intro k
  induction k with
  | zero =>
    intro i hk hi
    have hi2 : m_cache.length ≤ i := by omega
    refine ⟨i, false, zoomLoop_done _ _ _ _ hi2, le_refl _, hi, ?_, ?_, ?_⟩
    · intro m hm h1 h2
      omega
    · intro h
      cases h
    · intro _
      omega
  | succ k ih =>
    intro i hk hi
    have hlt : i < m_cache.length := by omega
    have hc : m_cache[i]? = some m_cache[i] := List.getElem?_eq_getElem hlt
    by_cases hx : xscale ≤ m_cache[i].ratio
    · refine ⟨i, true, zoomLoop_hit _ _ _ _ _ hlt hc hx, le_refl _, hi, ?_, ?_, ?_⟩
      · intro m hm h1 h2
        omega
      · intro _
        exact ⟨hlt, hx⟩
      · intro h
        cases h
    · obtain ⟨j, b, hz, h1, h2, h3, h4, h5⟩ := ih (i + 1) (by omega) (by omega)
      refine ⟨j, b, ?_, by omega, h2, ?_, h4, h5⟩
      · rw [zoomLoop_miss _ _ _ _ _ hlt hc hx]
        exact hz
      · intro m hm hm1 hm2
        by_cases hmi : m = i
        · subst hmi
          exact hx
        · exact h3 m hm (by omega) hm2

/-- What `selectZoomIndex` computes on a cache with `NbrZoomCache` slots. -/
theorem selectZoomIndex_spec (m_cache : List TypeCacheData) (xscale : ℚ)
    (hne : m_cache ≠ []) :
    ∃ k : Nat, selectZoomIndex m_cache.length m_cache xscale = some (k : Int) ∧
      ∃ hk : k < m_cache.length,
        (∀ (i : Nat) (hi : i < m_cache.length), i < k → ¬ xscale ≤ m_cache[i].ratio) ∧
        (xscale ≤ m_cache[k].ratio ∨
          (k + 1 = m_cache.length ∧
            ∀ (i : Nat) (hi : i < m_cache.length), ¬ xscale ≤ m_cache[i].ratio)) := by
  have hpos : 0 < m_cache.length := List.length_pos.mpr hne
  obtain ⟨j, b, hz, _, h2, h3, h4, h5⟩ :=
    zoomLoop_spec m_cache xscale m_cache.length 0 (by omega) (by omega)
  cases b with
  | true =>
    obtain ⟨hj, hx⟩ := h4 rfl
    refine ⟨j, ?_, hj, ?_, Or.inl hx⟩
    · simp [selectZoomIndex, hz]
    · intro i hi hik
      exact h3 i hi (by omega) hik
  | false =>
    have hj := h5 rfl
    subst hj
    refine ⟨m_cache.length - 1, ?_, by omega, ?_, Or.inr ⟨by omega, ?_⟩⟩
    · simp [selectZoomIndex, hz]
      omega
    · intro i hi _
      exact h3 i hi (by omega) hi
    · intro i hi
      exact h3 i hi (by omega) hi

theorem ratio_le_of_sorted (m_cache : List TypeCacheData)
    (hsorted : (m_cache.map TypeCacheData.ratio).Sorted (fun a b => a ≤ b))
    (i j : Nat) (hi : i < m_cache.length) (hj : j < m_cache.length) (hij : i ≤ j) :
    m_cache[i].ratio ≤ m_cache[j].ratio := by
  rcases Nat.eq_or_lt_of_le hij with h | h
  · subst h
    exact le_refl _
  · have hp := (List.pairwise_iff_getElem.mp hsorted) i j (by simpa using hi) (by simpa using hj) h
    simpa using hp

/-- C1. Slot selection of the caching `render`. For a non-empty cache whose ratios are
sorted ascending and a requested scale greater than 0, `selectZoomIndex` returns a valid
slot index `k`. When some slot has a ratio at least the scale, `k` is the least such index,
and its ratio is the smallest ratio that is at least the scale. When no slot has, `k` is the
last index, which holds the largest ratio. -/
theorem selectZoomIndex_least_or_last (m_cache : List TypeCacheData) (xscale : ℚ)
    (hne : m_cache ≠ [])
    (hsorted : (m_cache.map TypeCacheData.ratio).Sorted (fun a b => a ≤ b))
    (_hpos : 0 < xscale) :
    ∃ k : Nat, selectZoomIndex m_cache.length m_cache xscale = some (k : Int) ∧
      ∃ hk : k < m_cache.length,
        ((∃ (i : Nat) (hi : i < m_cache.length), xscale ≤ m_cache[i].ratio) →
          xscale ≤ m_cache[k].ratio ∧
          ∀ (i : Nat) (hi : i < m_cache.length), xscale ≤ m_cache[i].ratio →
            k ≤ i ∧ m_cache[k].ratio ≤ m_cache[i].ratio) ∧
        ((¬ ∃ (i : Nat) (hi : i < m_cache.length), xscale ≤ m_cache[i].ratio) →
          k + 1 = m_cache.length ∧
          ∀ (i : Nat) (hi : i < m_cache.length), m_cache[i].ratio ≤ m_cache[k].ratio) := by
  obtain ⟨k, hsel, hk, hbefore, hat⟩ := selectZoomIndex_spec m_cache xscale hne
  refine ⟨k, hsel, hk, ?_, ?_⟩
  · rintro ⟨i, hi, hx⟩
    rcases hat with hfound | ⟨_, hnone⟩
    · refine ⟨hfound, ?_⟩
      intro i2 hi2 hx2
      have hki : k ≤ i2 := by
        by_contra hlt
        exact hbefore i2 hi2 (by omega) hx2
      exact ⟨hki, ratio_le_of_sorted m_cache hsorted k i2 hk hi2 hki⟩
    · exact absurd hx (hnone i hi)
  · intro hno
    rcases hat with hfound | ⟨hlast, _⟩
    · exact absurd ⟨k, hk, hfound⟩ hno
    · refine ⟨hlast, ?_⟩
      intro i hi
      exact ratio_le_of_sorted m_cache hsorted i k hi hk (by omega)

/-- C1 on the ratios 2.5, 5, 10: scale 4 selects slot 1 (ratio 5), and scale 12, which no
ratio reaches, selects slot 2 (ratio 10). -/
theorem selectZoomIndex_least_or_last_witness :
    selectZoomIndex 3 sampleCache 4 = some 1 ∧ sampleCache[1]?.map TypeCacheData.ratio = some 5 ∧
    selectZoomIndex 3 sampleCache 12 = some 2 ∧
    sampleCache[2]?.map TypeCacheData.ratio = some 10 := by
  have hne : sampleCache ≠ [] := by simp [sampleCache, sampleBuild]
  have hsorted : (sampleCache.map TypeCacheData.ratio).Sorted (fun a b => a ≤ b) := by
    simp [sampleCache, sampleBuild, TypeCacheData.init]
    norm_num
  have hlen : sampleCache.length = 3 := by simp [sampleCache, sampleBuild]
  have h0 : sampleCache[0]? = some (TypeCacheData.init sampleBuild 2.5) := by
    simp [sampleCache, sampleBuild]
  have h1 : sampleCache[1]? = some (TypeCacheData.init sampleBuild 5) := by
    simp [sampleCache, sampleBuild]
  have h2 : sampleCache[2]? = some (TypeCacheData.init sampleBuild 10) := by
    simp [sampleCache, sampleBuild]
  obtain ⟨k, hsel, hk, hfound, _⟩ :=
    selectZoomIndex_least_or_last sampleCache 4 hne hsorted (by norm_num)
  obtain ⟨k2, hsel2, hk2, _, hnone2⟩ :=
    selectZoomIndex_least_or_last sampleCache 12 hne hsorted (by norm_num)
  have key : ∀ (i : Nat) (hi : i < sampleCache.length),
      sampleCache[i].ratio = if i = 0 then 5 / 2 else if i = 1 then 5 else 10 := by
    intro i hi
    have hi3 : i < 3 := by simpa [hlen] using hi
    interval_cases i <;> simp [sampleCache, sampleBuild, TypeCacheData.init]
    norm_num
  rw [hlen] at hsel hsel2
  have hone : (1 : Nat) < sampleCache.length := by omega
  obtain ⟨hx, hleast⟩ := hfound ⟨1, hone, by rw [key 1 hone]; norm_num⟩
  have hk1 : k ≤ 1 := (hleast 1 hone (by rw [key 1 hone]; norm_num)).1
  have hk0 : k ≠ 0 := by
    intro h0k
    subst h0k
    rw [key 0 hk] at hx
    norm_num at hx
  have hkeq : k = 1 := by omega
  have hno : ¬ ∃ (i : Nat) (hi : i < sampleCache.length), (12 : ℚ) ≤ sampleCache[i].ratio := by
    rintro ⟨i, hi, h12⟩
    rw [key i hi] at h12
    split_ifs at h12 <;> norm_num at h12
  have hk2eq : k2 = 2 := by
    have := (hnone2 hno).1
    omega
  subst hkeq
  subst hk2eq
  refine ⟨hsel, ?_, hsel2, ?_⟩
  · simp [h1, TypeCacheData.init]
  · simp [h2, TypeCacheData.init]

/-! ## Queries on invalid and valid documents -/

theorem isValid_eq_false_iff (r : Renderer) :
    isValid r = false ↔ r.mDocument = none ∨ ∃ d, r.mDocument = some d ∧ d.isOk = false := by
  unfold isValid
  cases hdoc : r.mDocument with
  | none => simp
  | some d => simp

/-- C6. On an invalid document (no handle, or a handle that reports not-ok) `pageCount()`
returns 0, `title()` returns the empty string and `pageSizeF(n)` returns (0, 0), for every
page number `n`. -/
theorem invalid_document_queries (r : Renderer) (n : Int)
    (hinvalid : r.mDocument = none ∨ ∃ d, r.mDocument = some d ∧ d.isOk = false) :
    isValid r = false ∧ pageCount r = some 0 ∧ title r = some "" ∧
      pageSizeF r n = some { width := 0, height := 0 } := by
  have h : isValid r = false := (isValid_eq_false_iff r).mpr hinvalid
  refine ⟨h, ?_, ?_, ?_⟩
  · simp [pageCount, h]
  · simp [title, h]
  · simp [pageSizeF, h]

/-- C6 at page 2, on a renderer whose handle exists but is not ok and on a renderer without
a handle. -/
theorem invalid_document_queries_witness :
    (isValid brokenRenderer = false ∧ pageCount brokenRenderer = some 0 ∧
      title brokenRenderer = some "" ∧
      pageSizeF brokenRenderer 2 = some { width := 0, height := 0 }) ∧
    (isValid emptyRenderer = false ∧ pageCount emptyRenderer = some 0 ∧
      title emptyRenderer = some "" ∧
      pageSizeF emptyRenderer 2 = some { width := 0, height := 0 }) :=
  ⟨invalid_document_queries brokenRenderer 2 (Or.inr ⟨brokenDoc, rfl, rfl⟩),
   invalid_document_queries emptyRenderer 2 (Or.inl rfl)⟩

/-- What `pageRotation` returns whenever a handle exists: the answer of the library, with
no regard to `isOk`. -/
theorem pageRotation_of_handle (r : Renderer) (d : PDFDoc) (n : Int)
    (hdoc : r.mDocument = some d) : pageRotation r n = d.getPageRotate n := by
  simp [pageRotation, hdoc]

/-- C7 (the code at the failing input). The renderer `brokenRenderer` is invalid, its
handle exists and reports not-ok, yet `pageRotation(1)` is the 90 that the library call
`getPageRotate(1)` answers, not 0: `pageRotation` guards on the handle only. -/
theorem pageRotation_consults_invalid_document :
    isValid brokenRenderer = false ∧ pageRotation brokenRenderer 1 = 90 ∧
      pageRotation brokenRenderer 1 ≠ 0 := by
  refine ⟨rfl, rfl, ?_⟩
  decide

/-- C8. On a valid document, with `w` and `h` the crop width and height of page `p` and
`d` the rendering DPI: `pageSizeF(p)` is `(h*d/72, w*d/72)` when the declared rotation is
90 or 270, and `(w*d/72, h*d/72)` for every other rotation. -/
theorem pageSizeF_valid (r : Renderer) (doc : PDFDoc) (p : Int)
    (hdoc : r.mDocument = some doc) (hok : doc.isOk = true) :
    ((doc.getPageRotate p = 90 ∨ doc.getPageRotate p = 270) →
      pageSizeF r p = some
        { width := doc.getPageCropHeight p * r.dpiForRendering / 72,
          height := doc.getPageCropWidth p * r.dpiForRendering / 72 }) ∧
    (¬ (doc.getPageRotate p = 90 ∨ doc.getPageRotate p = 270) →
      pageSizeF r p = some
        { width := doc.getPageCropWidth p * r.dpiForRendering / 72,
          height := doc.getPageCropHeight p * r.dpiForRendering / 72 }) := by
  have hvalid : isValid r = true := by simp [isValid, hdoc, hok]
  constructor
  · intro hrot
    simp [pageSizeF, hvalid, hdoc, hrot]
  · intro hrot
    simp [pageSizeF, hvalid, hdoc, hrot]

/-- C8 on the sample document at 72 dpi: page 2 (rotated by 90) has its sides swapped,
page 1 (rotation 0) has not. -/
theorem pageSizeF_valid_witness :
    pageSizeF sampleRenderer 2 = some { width := 842 * 72 / 72, height := 595 * 72 / 72 } ∧
      pageSizeF sampleRenderer 1 = some { width := 595 * 72 / 72, height := 842 * 72 / 72 } :=
  ⟨(pageSizeF_valid sampleRenderer sampleDoc 2 rfl rfl).1 (Or.inl (by decide)),
   (pageSizeF_valid sampleRenderer sampleDoc 1 rfl rfl).2 (by decide)⟩

/-! ## Rendering -/

/-- C9. On an invalid document `render` is a no-op in both builds: it returns with the
renderer (hence every cache slot), the painter (its world transform and its list of draw
calls) and the shared state (hence the trace: no backend created, nothing rasterized)
exactly as they were. -/
theorem render_invalid_noop (cfg : Build) (r : Renderer) (p : QPainter) (pageNumber : Int)
    (bounds : QRectF) (w : World) (hinvalid : isValid r = false) :
    render cfg r p pageNumber bounds w = some (r, p, w) := by
  unfold render
  cases cfg.cacheZoomImage with
  | true => simp [ZoomCache.render, hinvalid]
  | false => simp [NoCache.render, hinvalid]

/-- C9 on the renderer with a not-ok handle, in the caching and in the non-caching build. -/
theorem render_invalid_noop_witness :
    render sampleBuild brokenRenderer (scaledPainter 4) 1 nullBounds sampleWorld
        = some (brokenRenderer, scaledPainter 4, sampleWorld) ∧
      render { sampleBuild with cacheZoomImage := false } brokenRenderer (scaledPainter 4) 1
        nullBounds sampleWorld = some (brokenRenderer, scaledPainter 4, sampleWorld) :=
  ⟨render_invalid_noop sampleBuild brokenRenderer (scaledPainter 4) 1 nullBounds sampleWorld rfl,
   render_invalid_noop { sampleBuild with cacheZoomImage := false } brokenRenderer
     (scaledPainter 4) 1 nullBounds sampleWorld rfl⟩

/-- The library calls of one cache slot refresh, for a slot whose backend was `old`. -/
theorem createPDFImage_refresh (r : Renderer) (pageNumber : Int) (c : TypeCacheData)
    (w : World) (hvalid : isValid r = true)
    (hstale : pageNumber ≠ c.cachedPageNumber ∨ c.splash = none) :
    ZoomCache.createPDFImage r pageNumber c w = some
      ({ r with mSliceX := 0, mSliceY := 0 },
       { splash := some w.nextId, cachedPageNumber := pageNumber,
         cachedImage := QImage.view w.nextId, splashBitmap := some w.nextId, ratio := c.ratio },
       { w with
         nextId := w.nextId + 1,
         trace := w.trace ++
           ((match c.splash with
             | some old => [Event.deleteSplashOutputDev old]
             | none => []) ++
           [Event.newSplashOutputDev w.nextId, Event.startDoc w.nextId,
            Event.displayPage w.nextId pageNumber (r.dpiForRendering * c.ratio)
              (r.dpiForRendering * c.ratio) 0 false true false]) }) := by
  have hreq : ((pageNumber != c.cachedPageNumber) || (c.splash == none)) = true := by
    rcases hstale with h | h
    · simp [h]
    · simp [h]
  unfold ZoomCache.createPDFImage
  rw [if_pos hvalid]
  simp only [hreq, if_true]
  cases hs : c.splash with
  | none => simp [World.emit, List.append_assoc]
  | some old => simp [World.emit, List.append_assoc]

/-- A slot that holds the requested page is reused: no library call, only the image view
is rebuilt on the bitmap the slot already has. -/
theorem createPDFImage_reuse (r : Renderer) (pageNumber : Int) (c : TypeCacheData)
    (w : World) (h bitmap : Nat) (hvalid : isValid r = true)
    (hpage : c.cachedPageNumber = pageNumber) (hsplash : c.splash = some h)
    (hbitmap : c.splashBitmap = some bitmap) :
    ZoomCache.createPDFImage r pageNumber c w =
      some (r, { c with cachedImage := QImage.view bitmap }, w) := by
  unfold ZoomCache.createPDFImage
  rw [if_pos hvalid]
  simp [hpage, hsplash, hbitmap]

/-- The caching `render` once the slot is chosen and `createPDFImage` has returned. -/
theorem ZoomCache.render_eq (cfg : Build) (r : Renderer) (p : QPainter) (pageNumber : Int)
    (bounds : QRectF) (w : World) (k : Nat) (c : TypeCacheData)
    (r1 : Renderer) (c1 : TypeCacheData) (w1 : World)
    (hvalid : isValid r = true)
    (hassert : ZoomCache.assertsPass cfg p.worldTransform.m11 p.worldTransform.m22 = true)
    (hsel : selectZoomIndex cfg.NbrZoomCache r.m_cache p.worldTransform.m11 = some (k : Int))
    (hslot : r.m_cache[k]? = some c)
    (hcreate : ZoomCache.createPDFImage r pageNumber c w = some (r1, c1, w1)) :
    ZoomCache.render cfg r p pageNumber bounds w = some
      ({ r1 with m_cache := r1.m_cache.set k c1 },
       { worldTransform := p.worldTransform.scale (1 / c1.ratio) (1 / c1.ratio),
         drawn := p.drawn ++
           [{ transform := p.worldTransform.scale (1 / c1.ratio) (1 / c1.ratio),
              x := r1.mSliceX, y := r1.mSliceY, image := c1.cachedImage }] },
       w1) := by
  unfold ZoomCache.render
  rw [if_pos hvalid]
  simp [hassert, hsel, hslot, hcreate, QPainter.setWorldTransform, QPainter.drawImage]

/-- C3. Cache invalidation. On a valid document in the caching build, let the call
`render(p, q, bounds)` select slot `k`, let that slot already hold a backend `old` with the
rasterization of page `pg`, and let `q` differ from `pg`. Then the call returns and performs
exactly one refresh: the trace grows by the release of `old`, the creation of one new
backend, its `startDoc`, and one `displayPage` of page `q` at `dpiForRendering * ratio` on
both axes; one backend released, one created, one rasterization. Afterwards slot `k`
records page `q` with the new backend and the other slots are as before. -/
theorem render_other_page_refreshes_once (cfg : Build) (r : Renderer) (p : QPainter)
    (q pg : Int) (bounds : QRectF) (w : World) (k : Nat) (c : TypeCacheData) (old : Nat)
    (hmode : cfg.cacheZoomImage = true)
    (hvalid : isValid r = true)
    (hassert : ZoomCache.assertsPass cfg p.worldTransform.m11 p.worldTransform.m22 = true)
    (hsel : selectZoomIndex cfg.NbrZoomCache r.m_cache p.worldTransform.m11 = some (k : Int))
    (hslot : r.m_cache[k]? = some c)
    (hrendered : c.splash = some old) (hpage : c.cachedPageNumber = pg) (hq : q ≠ pg) :
    ∃ (r1 : Renderer) (p1 : QPainter) (w1 : World),
      render cfg r p q bounds w = some (r1, p1, w1) ∧
      w1.trace = w.trace ++
        [Event.deleteSplashOutputDev old, Event.newSplashOutputDev w.nextId,
         Event.startDoc w.nextId,
         Event.displayPage w.nextId q (r.dpiForRendering * c.ratio)
           (r.dpiForRendering * c.ratio) 0 false true false] ∧
      releasedBackends w1.trace = releasedBackends w.trace + 1 ∧
      createdBackends w1.trace = createdBackends w.trace + 1 ∧
      rasterizations w1.trace = rasterizations w.trace + 1 ∧
      r1.m_cache = r.m_cache.set k
        { splash := some w.nextId, cachedPageNumber := q, cachedImage := QImage.view w.nextId,
          splashBitmap := some w.nextId, ratio := c.ratio } ∧
      (r1.m_cache[k]?).map TypeCacheData.cachedPageNumber = some q := by
  have hcreate := createPDFImage_refresh r q c w hvalid (Or.inl (by rw [hpage]; exact hq))
  have hrender := ZoomCache.render_eq cfg r p q bounds w k c _ _ _ hvalid hassert hsel hslot hcreate
  have hk : k < r.m_cache.length := by
    rcases Nat.lt_or_ge k r.m_cache.length with h | h
    · exact h
    · rw [List.getElem?_eq_none h] at hslot
      cases hslot
  have hdispatch : render cfg r p q bounds w = ZoomCache.render cfg r p q bounds w := by
    unfold render
    rw [if_pos hmode]
  rw [← hdispatch] at hrender
  refine ⟨_, _, _, hrender, ?_, ?_, ?_, ?_, ?_, ?_⟩
  · simp [hrendered]
  · simp [hrendered, releasedBackends, List.countP_append, List.countP_cons]
  · simp [hrendered, createdBackends, List.countP_append, List.countP_cons]
  · simp [hrendered, rasterizations, List.countP_append, List.countP_cons]
  · rfl
  · simp [hk]

theorem sampleRenderer_valid : isValid sampleRenderer = true := rfl

theorem warmRenderer_valid : isValid warmRenderer = true := rfl

theorem select_warm (s : ℚ) (h1 : ¬ s ≤ 5 / 2) (h2 : s ≤ 5) :
    selectZoomIndex sampleBuild.NbrZoomCache warmRenderer.m_cache s = some ((1 : Nat) : Int) := by
  have h3 : ¬ s ≤ 2.5 := by norm_num; linarith [not_le.mp h1]
  simp [selectZoomIndex, zoomLoop_unfold, Build.NbrZoomCache, sampleBuild, warmRenderer,
    warmSlot, TypeCacheData.init, h3, h2]

theorem asserts_scaled (cfg : Build) (s : ℚ) (hs : 0 < s) :
    ZoomCache.assertsPass cfg (scaledPainter s).worldTransform.m11
      (scaledPainter s).worldTransform.m22 = true := by
  simp [ZoomCache.assertsPass, qFuzzyCompare, scaledPainter, hs, le_of_lt hs]

/-- C3 on the warm renderer: slot 1 holds page 1 in backend 1; rendering page 2 at scale 4
releases backend 1, creates backend 2 and rasterizes page 2 once at 72 * 5 dpi. -/
theorem render_other_page_refreshes_once_witness :
    ∃ (r1 : Renderer) (p1 : QPainter) (w1 : World),
      render sampleBuild warmRenderer (scaledPainter 4) 2 nullBounds warmWorld
        = some (r1, p1, w1) ∧
      w1.trace = warmWorld.trace ++
        [Event.deleteSplashOutputDev 1, Event.newSplashOutputDev warmWorld.nextId,
         Event.startDoc warmWorld.nextId,
         Event.displayPage warmWorld.nextId 2 (warmRenderer.dpiForRendering * warmSlot.ratio)
           (warmRenderer.dpiForRendering * warmSlot.ratio) 0 false true false] ∧
      releasedBackends w1.trace = releasedBackends warmWorld.trace + 1 ∧
      createdBackends w1.trace = createdBackends warmWorld.trace + 1 ∧
      rasterizations w1.trace = rasterizations warmWorld.trace + 1 ∧
      r1.m_cache = warmRenderer.m_cache.set 1
        { splash := some warmWorld.nextId, cachedPageNumber := 2,
          cachedImage := QImage.view warmWorld.nextId,
          splashBitmap := some warmWorld.nextId, ratio := warmSlot.ratio } ∧
      (r1.m_cache[1]?).map TypeCacheData.cachedPageNumber = some 2 :=
  render_other_page_refreshes_once sampleBuild warmRenderer (scaledPainter 4) 2 1 nullBounds
    warmWorld 1 warmSlot 1 rfl warmRenderer_valid (asserts_scaled sampleBuild 4 (by norm_num))
    (select_warm 4 (by norm_num) (by norm_num)) rfl rfl rfl (by decide)

/-- The scan reads nothing but the ratios of the slots. -/
theorem zoomLoop_congr (N : Nat) (m1 m2 : List TypeCacheData) (xscale : ℚ)
    (h : ∀ i : Nat, (m1[i]?).map TypeCacheData.ratio = (m2[i]?).map TypeCacheData.ratio) :
    ∀ (k i : Nat), N - i = k →
      zoomLoop N m1 xscale i false = zoomLoop N m2 xscale i false := by
  intro k
  induction k with
  | zero =>
    intro i hk
    have hi : ¬ i < N := by omega
    rw [zoomLoop_unfold N m1, zoomLoop_unfold N m2]
    simp [hi]
  | succ k ih =>
    intro i hk
    have hi : i < N := by omega
    have hrec := ih (i + 1) (by omega)
    have hi2 := h i
    rw [zoomLoop_unfold N m1, zoomLoop_unfold N m2]
    simp only [hi, if_true]
    cases h1 : m1[i]? with
    | none =>
      cases h2 : m2[i]? with
      | none => rfl
      | some c2 => simp [h1, h2] at hi2
    | some c1 =>
      cases h2 : m2[i]? with
      | none => simp [h1, h2] at hi2
      | some c2 =>
        have hr : c1.ratio = c2.ratio := by simpa [h1, h2] using hi2
        simp only [hr, hrec]

theorem selectZoomIndex_congr (N : Nat) (m1 m2 : List TypeCacheData) (xscale : ℚ)
    (h : ∀ i : Nat, (m1[i]?).map TypeCacheData.ratio = (m2[i]?).map TypeCacheData.ratio) :
    selectZoomIndex N m1 xscale = selectZoomIndex N m2 xscale := by
  unfold selectZoomIndex
  rw [zoomLoop_congr N m1 m2 xscale h N 0 (by omega)]

/-- Writing back a slot with the same ratio does not change what the scan selects. -/
theorem selectZoomIndex_set (N : Nat) (m_cache : List TypeCacheData) (xscale : ℚ) (k : Nat)
    (c c1 : TypeCacheData) (hslot : m_cache[k]? = some c) (hratio : c1.ratio = c.ratio) :
    selectZoomIndex N (m_cache.set k c1) xscale = selectZoomIndex N m_cache xscale := by
  apply selectZoomIndex_congr
  intro i
  by_cases hik : k = i
  · subst hik
    have hk : k < m_cache.length := by
      rcases Nat.lt_or_ge k m_cache.length with h | h
      · exact h
      · rw [List.getElem?_eq_none h] at hslot
        cases hslot
    simp [hk, hslot, hratio]
  · simp [List.getElem?_set_ne hik]

theorem slot_index_lt (m_cache : List TypeCacheData) (k : Nat) (c : TypeCacheData)
    (hslot : m_cache[k]? = some c) : k < m_cache.length := by
  rcases Nat.lt_or_ge k m_cache.length with h | h
  · exact h
  · rw [List.getElem?_eq_none h] at hslot
    cases hslot

/-- The caching `render` on a slot that must be refreshed. -/
theorem render_refresh (cfg : Build) (r : Renderer) (p : QPainter) (pageNumber : Int)
    (bounds : QRectF) (w : World) (k : Nat) (c : TypeCacheData)
    (hmode : cfg.cacheZoomImage = true)
    (hvalid : isValid r = true)
    (hassert : ZoomCache.assertsPass cfg p.worldTransform.m11 p.worldTransform.m22 = true)
    (hsel : selectZoomIndex cfg.NbrZoomCache r.m_cache p.worldTransform.m11 = some (k : Int))
    (hslot : r.m_cache[k]? = some c)
    (hstale : pageNumber ≠ c.cachedPageNumber ∨ c.splash = none) :
    render cfg r p pageNumber bounds w = some
      ({ r with
         mSliceX := 0, mSliceY := 0,
         m_cache := r.m_cache.set k
           { splash := some w.nextId, cachedPageNumber := pageNumber,
             cachedImage := QImage.view w.nextId, splashBitmap := some w.nextId,
             ratio := c.ratio } },
       { worldTransform := p.worldTransform.scale (1 / c.ratio) (1 / c.ratio),
         drawn := p.drawn ++
           [{ transform := p.worldTransform.scale (1 / c.ratio) (1 / c.ratio),
              x := 0, y := 0, image := QImage.view w.nextId }] },
       { w with
         nextId := w.nextId + 1,
         trace := w.trace ++
           ((match c.splash with
             | some old => [Event.deleteSplashOutputDev old]
             | none => []) ++
           [Event.newSplashOutputDev w.nextId, Event.startDoc w.nextId,
            Event.displayPage w.nextId pageNumber (r.dpiForRendering * c.ratio)
              (r.dpiForRendering * c.ratio) 0 false true false]) }) := by
  have hcreate := createPDFImage_refresh r pageNumber c w hvalid hstale
  have hrender :=
    ZoomCache.render_eq cfg r p pageNumber bounds w k c _ _ _ hvalid hassert hsel hslot hcreate
  unfold render
  rw [if_pos hmode]
  exact hrender

/-- The caching `render` on a slot that already holds the requested page. -/
theorem render_reuse (cfg : Build) (r : Renderer) (p : QPainter) (pageNumber : Int)
    (bounds : QRectF) (w : World) (k : Nat) (c : TypeCacheData) (h bitmap : Nat)
    (hmode : cfg.cacheZoomImage = true)
    (hvalid : isValid r = true)
    (hassert : ZoomCache.assertsPass cfg p.worldTransform.m11 p.worldTransform.m22 = true)
    (hsel : selectZoomIndex cfg.NbrZoomCache r.m_cache p.worldTransform.m11 = some (k : Int))
    (hslot : r.m_cache[k]? = some c)
    (hpage : c.cachedPageNumber = pageNumber) (hsplash : c.splash = some h)
    (hbitmap : c.splashBitmap = some bitmap) :
    render cfg r p pageNumber bounds w = some
      ({ r with m_cache := r.m_cache.set k { c with cachedImage := QImage.view bitmap } },
       { worldTransform := p.worldTransform.scale (1 / c.ratio) (1 / c.ratio),
         drawn := p.drawn ++
           [{ transform := p.worldTransform.scale (1 / c.ratio) (1 / c.ratio),
              x := r.mSliceX, y := r.mSliceY, image := QImage.view bitmap }] },
       w) := by
  have hcreate := createPDFImage_reuse r pageNumber c w h bitmap hvalid hpage hsplash hbitmap
  have hrender :=
    ZoomCache.render_eq cfg r p pageNumber bounds w k c _ _ _ hvalid hassert hsel hslot hcreate
  unfold render
  rw [if_pos hmode]
  exact hrender

/-- The constructor makes consistent slots only. -/
theorem construct_slots_consistent (cfg : Build) (raw : Renderer) (filename : String)
    (imp : Bool) (w : World) :
    ∀ c ∈ (construct cfg raw filename imp w).1.m_cache, slotConsistent c := by
  intro c hc hsplash
  exfalso
  apply hsplash
  unfold construct at hc
  cases hmode : cfg.cacheZoomImage with
  | true =>
    simp [hmode] at hc
    obtain ⟨ratio, _, hr⟩ := hc
    rw [← hr]
    rfl
  | false => simp [hmode] at hc

theorem createPDFImage_consistent (r : Renderer) (pageNumber : Int) (c : TypeCacheData)
    (w : World) (r1 : Renderer) (c1 : TypeCacheData) (w1 : World)
    (hcreate : ZoomCache.createPDFImage r pageNumber c w = some (r1, c1, w1))
    (hc : slotConsistent c) : slotConsistent c1 ∧ r1.m_cache = r.m_cache := by
  cases hvalid : isValid r with
  | false =>
    simp [ZoomCache.createPDFImage, hvalid] at hcreate
    obtain ⟨h1, h2, _⟩ := hcreate
    subst h1
    subst h2
    exact ⟨hc, rfl⟩
  | true =>
    by_cases hwarm : pageNumber = c.cachedPageNumber ∧ c.splash ≠ none
    · obtain ⟨hpage, hsp⟩ := hwarm
      obtain ⟨h, hh⟩ := Option.ne_none_iff_exists.mp hsp
      obtain ⟨b, hb⟩ := Option.ne_none_iff_exists.mp (hc hsp)
      rw [createPDFImage_reuse r pageNumber c w h b hvalid hpage.symm hh.symm hb.symm] at hcreate
      simp only [Option.some.injEq, Prod.mk.injEq] at hcreate
      obtain ⟨h1, h2, _⟩ := hcreate
      subst h1
      subst h2
      exact ⟨fun _ => by simp [← hb], rfl⟩
    · have hstale : pageNumber ≠ c.cachedPageNumber ∨ c.splash = none := by
        by_cases hp : pageNumber = c.cachedPageNumber
        · right
          by_contra hsp
          exact hwarm ⟨hp, hsp⟩
        · left
          exact hp
      rw [createPDFImage_refresh r pageNumber c w hvalid hstale] at hcreate
      simp only [Option.some.injEq, Prod.mk.injEq] at hcreate
      obtain ⟨h1, h2, _⟩ := hcreate
      subst h1
      subst h2
      exact ⟨fun _ => by simp, rfl⟩

/-- Every `render` that returns keeps all slots consistent. -/
theorem render_slots_consistent (cfg : Build) (r : Renderer) (p : QPainter) (pageNumber : Int)
    (bounds : QRectF) (w : World) (r1 : Renderer) (p1 : QPainter) (w1 : World)
    (hrender : render cfg r p pageNumber bounds w = some (r1, p1, w1))
    (hall : ∀ c ∈ r.m_cache, slotConsistent c) :
    ∀ c ∈ r1.m_cache, slotConsistent c := by
  unfold render at hrender
  cases hmode : cfg.cacheZoomImage with
  | false =>
    rw [hmode] at hrender
    simp only [Bool.false_eq_true, if_false] at hrender
    have hm : r1.m_cache = r.m_cache := by
      cases hvalid : isValid r with
      | false =>
        simp [NoCache.render, hvalid] at hrender
        rw [← hrender.1]
      | true =>
        cases hb : bounds.isNull <;>
          simp [NoCache.render, NoCache.createPDFImage, hvalid, hb] at hrender <;>
          rw [← hrender.1]
    rw [hm]
    exact hall
  | true =>
    rw [hmode] at hrender
    simp only [if_true] at hrender
    cases hvalid : isValid r with
    | false =>
      simp [ZoomCache.render, hvalid] at hrender
      rw [← hrender.1]
      exact hall
    | true =>
      unfold ZoomCache.render at hrender
      rw [if_pos hvalid] at hrender
      cases hassert : ZoomCache.assertsPass cfg p.worldTransform.m11 p.worldTransform.m22 with
      | false => simp [hassert] at hrender
      | true =>
        cases hsel : selectZoomIndex cfg.NbrZoomCache r.m_cache p.worldTransform.m11 with
        | none => simp [hassert, hsel] at hrender
        | some z =>
          by_cases hz : z < 0
          · simp [hassert, hsel, hz] at hrender
          · cases hslot : r.m_cache[z.toNat]? with
            | none => simp [hassert, hsel, hz, hslot] at hrender
            | some c0 =>
              cases hcreate : ZoomCache.createPDFImage r pageNumber c0 w with
              | none => simp [hassert, hsel, hz, hslot, hcreate] at hrender
              | some res =>
                obtain ⟨r2, c2, w2⟩ := res
                have hc0 : slotConsistent c0 :=
                  hall c0 (List.getElem?_mem hslot)
                obtain ⟨hc2, hm2⟩ := createPDFImage_consistent r pageNumber c0 w r2 c2 w2 hcreate hc0
                simp [hassert, hsel, hz, hslot, hcreate, QPainter.setWorldTransform,
                  QPainter.drawImage] at hrender
                obtain ⟨hr1, _, _⟩ := hrender
                intro c hc
                rw [← hr1] at hc
                simp only at hc
                rcases List.mem_or_eq_of_mem_set hc with h | h
                · rw [hm2] at h
                  exact hall c h
                · rw [h]
                  exact hc2

/-- C2 (as amended). Cache reuse. On a valid document in the caching build, let two
consecutive `render` calls ask for the same page with scales that select the same slot `k`
(a slot that holds its bitmap whenever it holds a backend). Both calls return. The second
call leaves the shared state as the first left it: no backend is created or released,
nothing is rasterized, and the slot keeps its recorded page number (the requested page)
and its backend handle. In total the two calls create a backend and rasterize the page
once when the slot was empty or held another page before the first call, and not at all
when it already held the requested page. -/
theorem consecutive_renders_reuse_slot (cfg : Build) (r : Renderer) (pA pB : QPainter)
    (pageNumber : Int) (boundsA boundsB : QRectF) (w : World) (k : Nat) (c : TypeCacheData)
    (hmode : cfg.cacheZoomImage = true)
    (hvalid : isValid r = true)
    (hassertA : ZoomCache.assertsPass cfg pA.worldTransform.m11 pA.worldTransform.m22 = true)
    (hassertB : ZoomCache.assertsPass cfg pB.worldTransform.m11 pB.worldTransform.m22 = true)
    (hselA : selectZoomIndex cfg.NbrZoomCache r.m_cache pA.worldTransform.m11 = some (k : Int))
    (hselB : selectZoomIndex cfg.NbrZoomCache r.m_cache pB.worldTransform.m11 = some (k : Int))
    (hslot : r.m_cache[k]? = some c)
    (hbitmap : slotConsistent c) :
    ∃ (r1 : Renderer) (p1 : QPainter) (w1 : World) (r2 : Renderer) (p2 : QPainter) (w2 : World)
      (c1 c2 : TypeCacheData),
      render cfg r pA pageNumber boundsA w = some (r1, p1, w1) ∧
      render cfg r1 pB pageNumber boundsB w1 = some (r2, p2, w2) ∧
      r1.m_cache[k]? = some c1 ∧ r2.m_cache[k]? = some c2 ∧
      w2 = w1 ∧
      c1.cachedPageNumber = pageNumber ∧ c2.cachedPageNumber = c1.cachedPageNumber ∧
      c1.splash ≠ none ∧ c2.splash = c1.splash ∧
      createdBackends w2.trace = createdBackends w.trace +
        (if pageNumber = c.cachedPageNumber ∧ c.splash ≠ none then 0 else 1) ∧
      rasterizations w2.trace = rasterizations w.trace +
        (if pageNumber = c.cachedPageNumber ∧ c.splash ≠ none then 0 else 1) := by
  have hk : k < r.m_cache.length := slot_index_lt r.m_cache k c hslot
  by_cases hwarm : pageNumber = c.cachedPageNumber ∧ c.splash ≠ none
  · obtain ⟨hpage, hsp⟩ := hwarm
    obtain ⟨h, hh⟩ := Option.ne_none_iff_exists.mp hsp
    obtain ⟨b, hb⟩ := Option.ne_none_iff_exists.mp (hbitmap hsp)
    have first := render_reuse cfg r pA pageNumber boundsA w k c h b hmode hvalid hassertA hselA
      hslot hpage.symm hh.symm hb.symm
    have hsel1 := selectZoomIndex_set cfg.NbrZoomCache r.m_cache pB.worldTransform.m11 k c
      { c with cachedImage := QImage.view b } hslot rfl
    have hslot1 : (r.m_cache.set k { c with cachedImage := QImage.view b })[k]?
        = some { c with cachedImage := QImage.view b } := by simp [hk]
    have second := render_reuse cfg
      { r with m_cache := r.m_cache.set k { c with cachedImage := QImage.view b } }
      pB pageNumber boundsB w k { c with cachedImage := QImage.view b } h b hmode hvalid hassertB
      (hsel1.trans hselB) hslot1 hpage.symm hh.symm hb.symm
    refine ⟨_, _, _, _, _, _, { c with cachedImage := QImage.view b },
      { c with cachedImage := QImage.view b }, first, second, hslot1, ?_, rfl, hpage.symm, rfl,
      ?_, rfl, ?_, ?_⟩
    · simp [hk]
    · simpa using hsp
    · simp [hpage, hsp]
    · simp [hpage, hsp]
  · have hstale : pageNumber ≠ c.cachedPageNumber ∨ c.splash = none := by
      by_cases hp : pageNumber = c.cachedPageNumber
      · right
        by_contra hsp
        exact hwarm ⟨hp, hsp⟩
      · left
        exact hp
    have first := render_refresh cfg r pA pageNumber boundsA w k c hmode hvalid hassertA hselA
      hslot hstale
    have hsel1 := selectZoomIndex_set cfg.NbrZoomCache r.m_cache pB.worldTransform.m11 k c
      { splash := some w.nextId, cachedPageNumber := pageNumber,
        cachedImage := QImage.view w.nextId, splashBitmap := some w.nextId, ratio := c.ratio }
      hslot rfl
    have hslot1 : (r.m_cache.set k
        { splash := some w.nextId, cachedPageNumber := pageNumber,
          cachedImage := QImage.view w.nextId, splashBitmap := some w.nextId,
          ratio := c.ratio })[k]?
        = some { splash := some w.nextId, cachedPageNumber := pageNumber,
                 cachedImage := QImage.view w.nextId, splashBitmap := some w.nextId,
                 ratio := c.ratio } := by simp [hk]
    have second := fun (w1 : World) => render_reuse cfg
      { r with
        mSliceX := 0, mSliceY := 0,
        m_cache := r.m_cache.set k
          { splash := some w.nextId, cachedPageNumber := pageNumber,
            cachedImage := QImage.view w.nextId, splashBitmap := some w.nextId,
            ratio := c.ratio } }
      pB pageNumber boundsB w1 k _ w.nextId w.nextId hmode hvalid hassertB
      (hsel1.trans hselB) hslot1 rfl rfl rfl
    refine ⟨_, _, _, _, _, _, _, _, first, second _, hslot1, ?_, rfl, rfl, rfl, ?_, rfl, ?_, ?_⟩
    · simp [hk]
    · simp
    · rw [if_neg hwarm]
      cases hs : c.splash <;>
        simp [createdBackends, List.countP_append, List.countP_cons]
    · rw [if_neg hwarm]
      cases hs : c.splash <;>
        simp [rasterizations, List.countP_append, List.countP_cons]

theorem select_sample (s : ℚ) (h1 : ¬ s ≤ 5 / 2) (h2 : s ≤ 5) :
    selectZoomIndex sampleBuild.NbrZoomCache sampleRenderer.m_cache s
      = some ((1 : Nat) : Int) := by
  have h3 : ¬ s ≤ 2.5 := by norm_num; linarith [not_le.mp h1]
  simp [selectZoomIndex, zoomLoop_unfold, Build.NbrZoomCache, sampleBuild, sampleRenderer,
    construct, TypeCacheData.init, h3, h2]

theorem select_sample_first (s : ℚ) (h1 : s ≤ 5 / 2) :
    selectZoomIndex sampleBuild.NbrZoomCache sampleRenderer.m_cache s
      = some ((0 : Nat) : Int) := by
  have h3 : s ≤ 2.5 := by norm_num; exact h1
  simp [selectZoomIndex, zoomLoop_unfold, Build.NbrZoomCache, sampleBuild, sampleRenderer,
    construct, TypeCacheData.init, h3]

/-- The warm state is what one `render` of page 1 at scale 4 makes of the fresh renderer. -/
theorem warm_after_first_render :
    render sampleBuild sampleRenderer (scaledPainter 4) 1 nullBounds sampleWorld = some
      (warmRenderer,
       { worldTransform := (scaledPainter 4).worldTransform.scale (1 / 5) (1 / 5),
         drawn := [{ transform := (scaledPainter 4).worldTransform.scale (1 / 5) (1 / 5),
                     x := 0, y := 0, image := QImage.view 1 }] },
       warmWorld) := by
  rw [render_refresh sampleBuild sampleRenderer (scaledPainter 4) 1 nullBounds sampleWorld 1
    (TypeCacheData.init sampleBuild 5) rfl sampleRenderer_valid
    (asserts_scaled sampleBuild 4 (by norm_num)) (select_sample 4 (by norm_num) (by norm_num))
    rfl (Or.inr rfl)]
  simp [warmRenderer, warmWorld, warmSlot, sampleRenderer, sampleWorld, construct, sampleBuild,
    TypeCacheData.init, scaledPainter, Sys.initial, World.emit, sampleRaw]
  norm_num

/-- C2 (as amended) on the fresh renderer: page 1 at scale 4 and then at scale 3, both
selecting the empty slot 1; the two calls create one backend and rasterize once. -/
theorem consecutive_renders_reuse_slot_witness :
    ∃ (r1 : Renderer) (p1 : QPainter) (w1 : World) (r2 : Renderer) (p2 : QPainter) (w2 : World)
      (c1 c2 : TypeCacheData),
      render sampleBuild sampleRenderer (scaledPainter 4) 1 nullBounds sampleWorld
        = some (r1, p1, w1) ∧
      render sampleBuild r1 (scaledPainter 3) 1 nullBounds w1 = some (r2, p2, w2) ∧
      r1.m_cache[1]? = some c1 ∧ r2.m_cache[1]? = some c2 ∧
      w2 = w1 ∧
      c1.cachedPageNumber = 1 ∧ c2.cachedPageNumber = c1.cachedPageNumber ∧
      c1.splash ≠ none ∧ c2.splash = c1.splash ∧
      createdBackends w2.trace = createdBackends sampleWorld.trace +
        (if (1 : Int) = (TypeCacheData.init sampleBuild 5).cachedPageNumber ∧
            (TypeCacheData.init sampleBuild 5).splash ≠ none then 0 else 1) ∧
      rasterizations w2.trace = rasterizations sampleWorld.trace +
        (if (1 : Int) = (TypeCacheData.init sampleBuild 5).cachedPageNumber ∧
            (TypeCacheData.init sampleBuild 5).splash ≠ none then 0 else 1) :=
  consecutive_renders_reuse_slot sampleBuild sampleRenderer (scaledPainter 4) (scaledPainter 3) 1
    nullBounds nullBounds sampleWorld 1 (TypeCacheData.init sampleBuild 5) rfl
    sampleRenderer_valid (asserts_scaled sampleBuild 4 (by norm_num))
    (asserts_scaled sampleBuild 3 (by norm_num))
    (select_sample 4 (by norm_num) (by norm_num)) (select_sample 3 (by norm_num) (by norm_num))
    rfl (fun h => absurd rfl h)

/-- C2 (counterexample to "exactly once in total"). After one `render` of page 1 at scale
4 the renderer is in the warm state. From there two consecutive `render` calls for page 1,
at scales 4 and 3 which both select slot 1, create no backend and rasterize nothing: the
count of created backends after the two calls is the count before them, not one more. -/
theorem two_renders_of_cached_page_create_no_backend :
    ∃ (p0 : QPainter) (r1 : Renderer) (p1 : QPainter) (w1 : World) (r2 : Renderer)
      (p2 : QPainter) (w2 : World),
      render sampleBuild sampleRenderer (scaledPainter 4) 1 nullBounds sampleWorld
        = some (warmRenderer, p0, warmWorld) ∧
      isValid warmRenderer = true ∧
      selectZoomIndex sampleBuild.NbrZoomCache warmRenderer.m_cache 4 = some 1 ∧
      render sampleBuild warmRenderer (scaledPainter 4) 1 nullBounds warmWorld
        = some (r1, p1, w1) ∧
      selectZoomIndex sampleBuild.NbrZoomCache r1.m_cache 3 = some 1 ∧
      render sampleBuild r1 (scaledPainter 3) 1 nullBounds w1 = some (r2, p2, w2) ∧
      createdBackends w2.trace = createdBackends warmWorld.trace ∧
      rasterizations w2.trace = rasterizations warmWorld.trace ∧
      ¬ (createdBackends w2.trace = createdBackends warmWorld.trace + 1) := by
  have hsel4 := select_warm 4 (by norm_num) (by norm_num)
  have hsel3 := select_warm 3 (by norm_num) (by norm_num)
  have hset : warmRenderer.m_cache.set 1 { warmSlot with cachedImage := QImage.view 1 }
      = warmRenderer.m_cache := rfl
  have first := render_reuse sampleBuild warmRenderer (scaledPainter 4) 1 nullBounds warmWorld 1
    warmSlot 1 1 rfl warmRenderer_valid (asserts_scaled sampleBuild 4 (by norm_num)) hsel4
    rfl rfl rfl rfl
  have second := render_reuse sampleBuild warmRenderer (scaledPainter 3) 1 nullBounds warmWorld 1
    warmSlot 1 1 rfl warmRenderer_valid (asserts_scaled sampleBuild 3 (by norm_num)) hsel3
    rfl rfl rfl rfl
  rw [hset] at first second
  refine ⟨_, _, _, _, _, _, _, warm_after_first_render, rfl, ?_, first, ?_, second, rfl, rfl,
    ?_⟩
  · simpa using hsel4
  · simpa using hsel3
  · exact Nat.ne_of_lt (Nat.lt_succ_self _)

/-- The transform the caching `render` leaves in the painter, on any valid call: the entry
transform scaled by `1 / ratio` of the selected slot, which is also the transform the image
was drawn under. It differs from the entry transform as soon as the ratio is not 1 and the
entry scale is not 0. -/
theorem render_cached_final_transform (cfg : Build) (r : Renderer) (p : QPainter)
    (pageNumber : Int) (bounds : QRectF) (w : World) (k : Nat) (c : TypeCacheData)
    (hmode : cfg.cacheZoomImage = true)
    (hvalid : isValid r = true)
    (hassert : ZoomCache.assertsPass cfg p.worldTransform.m11 p.worldTransform.m22 = true)
    (hsel : selectZoomIndex cfg.NbrZoomCache r.m_cache p.worldTransform.m11 = some (k : Int))
    (hslot : r.m_cache[k]? = some c)
    (hbitmap : slotConsistent c) :
    ∃ (r1 : Renderer) (p1 : QPainter) (w1 : World) (image : QImage),
      render cfg r p pageNumber bounds w = some (r1, p1, w1) ∧
      p1.drawn = p.drawn ++
        [{ transform := p.worldTransform.scale (1 / c.ratio) (1 / c.ratio),
           x := r1.mSliceX, y := r1.mSliceY, image := image }] ∧
      p1.worldTransform = p.worldTransform.scale (1 / c.ratio) (1 / c.ratio) ∧
      (c.ratio ≠ 1 → p.worldTransform.m11 ≠ 0 → p1.worldTransform ≠ p.worldTransform) := by
  have hne : c.ratio ≠ 1 → p.worldTransform.m11 ≠ 0 →
      p.worldTransform.scale (1 / c.ratio) (1 / c.ratio) ≠ p.worldTransform := by
    intro hr hm heq
    have h11 : p.worldTransform.m11 * (1 / c.ratio) = p.worldTransform.m11 := by
      have := congrArg QTransform.m11 heq
      simpa [QTransform.scale] using this
    have h1 : (1 : ℚ) / c.ratio = 1 := by
      have h2 : p.worldTransform.m11 * (1 / c.ratio) = p.worldTransform.m11 * 1 := by
        rw [h11, mul_one]
      exact mul_left_cancel₀ hm h2
    have hc0 : c.ratio ≠ 0 := by
      intro h0
      rw [h0] at h1
      norm_num at h1
    rw [div_eq_iff hc0] at h1
    exact hr (by linarith)
  by_cases hwarm : pageNumber = c.cachedPageNumber ∧ c.splash ≠ none
  · obtain ⟨hpage, hsp⟩ := hwarm
    obtain ⟨h, hh⟩ := Option.ne_none_iff_exists.mp hsp
    obtain ⟨b, hb⟩ := Option.ne_none_iff_exists.mp (hbitmap hsp)
    exact ⟨_, _, _, _, render_reuse cfg r p pageNumber bounds w k c h b hmode hvalid hassert hsel
      hslot hpage.symm hh.symm hb.symm, rfl, rfl, hne⟩
  · have hstale : pageNumber ≠ c.cachedPageNumber ∨ c.splash = none := by
      by_cases hp : pageNumber = c.cachedPageNumber
      · right
        by_contra hsp
        exact hwarm ⟨hp, hsp⟩
      · left
        exact hp
    exact ⟨_, _, _, _, render_refresh cfg r p pageNumber bounds w k c hmode hvalid hassert hsel
      hslot hstale, rfl, rfl, hne⟩

/-- C10 (the code at the failing input). The fresh sample renderer draws page 1 for a
painter with the identity transform (uniform scale 1). The image is drawn under the
identity scaled by `1 / 2.5`, as the claim says, but on return the world transform of the
painter is still that scaled transform (`m11 = 2/5`), not the identity it had on entry:
`savedTransform.scale(..)` has overwritten the saved copy before it is set back. -/
theorem render_cached_does_not_restore_transform :
    ∃ (r1 : Renderer) (p1 : QPainter) (w1 : World),
      render sampleBuild sampleRenderer identityPainter 1 nullBounds sampleWorld
        = some (r1, p1, w1) ∧
      p1.drawn = [{ transform := QTransform.identity.scale (1 / (5 / 2)) (1 / (5 / 2)),
                    x := 0, y := 0, image := QImage.view 1 }] ∧
      p1.worldTransform = QTransform.identity.scale (1 / (5 / 2)) (1 / (5 / 2)) ∧
      p1.worldTransform.m11 = 2 / 5 ∧ p1.worldTransform.m22 = 2 / 5 ∧
      p1.worldTransform ≠ identityPainter.worldTransform := by
  have hassert : ZoomCache.assertsPass sampleBuild identityPainter.worldTransform.m11
      identityPainter.worldTransform.m22 = true := by
    simp [ZoomCache.assertsPass, qFuzzyCompare, identityPainter, QTransform.identity]
  have hsel : selectZoomIndex sampleBuild.NbrZoomCache sampleRenderer.m_cache
      identityPainter.worldTransform.m11 = some ((0 : Nat) : Int) :=
    select_sample_first _ (by simp [identityPainter, QTransform.identity]; norm_num)
  have hrender := render_refresh sampleBuild sampleRenderer identityPainter 1 nullBounds
    sampleWorld 0 (TypeCacheData.init sampleBuild 2.5) rfl sampleRenderer_valid hassert hsel
    rfl (Or.inr rfl)
  refine ⟨_, _, _, hrender, ?_, ?_, ?_, ?_, ?_⟩
  · simp [identityPainter, TypeCacheData.init, sampleWorld, construct, Sys.initial, World.emit]
    norm_num
  · simp [identityPainter, TypeCacheData.init]
    norm_num
  · simp [identityPainter, TypeCacheData.init, QTransform.scale, QTransform.identity]
    norm_num
  · simp [identityPainter, TypeCacheData.init, QTransform.scale, QTransform.identity]
    norm_num
  · intro heq
    have h11 := congrArg QTransform.m11 heq
    simp [identityPainter, TypeCacheData.init, QTransform.scale, QTransform.identity] at h11
    norm_num at h11

/-! ## Life cycle of `globalParams` -/

theorem releaseCache_world (m_cache : List TypeCacheData) :
    ∀ w : World, (releaseCache m_cache w).2 = { w with trace := w.trace ++ releaseEvents m_cache } := by
  induction m_cache with
  | nil =>
    intro w
    simp [releaseCache, releaseEvents]
  | cons c rest ih =>
    intro w
    cases hs : c.splash with
    | none =>
      simp only [releaseCache, hs]
      rw [ih w]
      simp [releaseEvents, hs]
    | some h =>
      simp only [releaseCache, hs]
      rw [ih (w.emit (Event.deleteSplashOutputDev h))]
      simp [releaseEvents, hs, World.emit]

theorem releaseEvents_neutral (m_cache : List TypeCacheData) :
    ∀ e ∈ releaseEvents m_cache, e.touchesGlobalParams = false := by
  intro e he
  simp only [releaseEvents, List.mem_filterMap] at he
  obtain ⟨c, _, hc⟩ := he
  cases hs : c.splash with
  | none => simp [hs] at hc
  | some h =>
    simp [hs] at hc
    subst hc
    rfl

theorem created_append_neutral (t es : List Event)
    (h : ∀ e ∈ es, e.touchesGlobalParams = false) :
    createdGlobalParams (t ++ es) = createdGlobalParams t := by
  induction es generalizing t with
  | nil => simp
  | cons e rest ih =>
    have he := h e (List.mem_cons_self _ _)
    have hrest := ih (t ++ [e]) (fun x hx => h x (List.mem_cons_of_mem _ hx))
    rw [List.append_assoc] at hrest
    simp only [List.singleton_append] at hrest
    rw [hrest]
    cases e <;> simp_all [createdGlobalParams, Event.touchesGlobalParams, List.countP_append,
      List.countP_cons]

theorem released_append_neutral (t es : List Event)
    (h : ∀ e ∈ es, e.touchesGlobalParams = false) :
    releasedGlobalParams (t ++ es) = releasedGlobalParams t := by
  induction es generalizing t with
  | nil => simp
  | cons e rest ih =>
    have he := h e (List.mem_cons_self _ _)
    have hrest := ih (t ++ [e]) (fun x hx => h x (List.mem_cons_of_mem _ hx))
    rw [List.append_assoc] at hrest
    simp only [List.singleton_append] at hrest
    rw [hrest]
    cases e <;> simp_all [releasedGlobalParams, Event.touchesGlobalParams, List.countP_append,
      List.countP_cons]

theorem alive_append_neutral (t es : List Event)
    (h : ∀ e ∈ es, e.touchesGlobalParams = false) :
    aliveGlobalParams (t ++ es) = aliveGlobalParams t := by
  induction es generalizing t with
  | nil => simp
  | cons e rest ih =>
    have he := h e (List.mem_cons_self _ _)
    have hrest := ih (t ++ [e]) (fun x hx => h x (List.mem_cons_of_mem _ hx))
    rw [List.append_assoc] at hrest
    simp only [List.singleton_append] at hrest
    rw [hrest]
    cases e <;> simp_all [aliveGlobalParams, Event.touchesGlobalParams, List.foldl_append,
      aliveStep]

/-- The shared state after the constructor. -/
theorem construct_world (cfg : Build) (raw : Renderer) (filename : String) (imp : Bool)
    (w : World) :
    (construct cfg raw filename imp w).2 =
      match w.globalParams with
      | none =>
        { globalParams := some w.nextId, sInstancesCount := w.sInstancesCount + 1,
          nextId := w.nextId + 1,
          trace := w.trace ++ [Event.newGlobalParams w.nextId,
            Event.setupBaseFonts w.nextId cfg.fontsDir, Event.newPDFDoc filename] }
      | some _ =>
        { w with sInstancesCount := w.sInstancesCount + 1,
                 trace := w.trace ++ [Event.newPDFDoc filename] } := by
  unfold construct
  cases hgp : w.globalParams with
  | none => simp [World.emit, hgp]
  | some h => simp [World.emit, hgp]

theorem construct_doc (cfg : Build) (raw : Renderer) (filename : String) (imp : Bool)
    (w : World) :
    (construct cfg raw filename imp w).1.mDocument = some (cfg.openFile filename) := by
  unfold construct
  rfl

/-- The shared state after the destructor of a renderer that owns a document handle. -/
theorem destroy_world (cfg : Build) (r : Renderer) (w : World) (d : PDFDoc)
    (hdoc : r.mDocument = some d) :
    destroy cfg r w =
      match w.globalParams with
      | some h =>
        if w.sInstancesCount - 1 = 0 then
          { globalParams := none, sInstancesCount := w.sInstancesCount - 1, nextId := w.nextId,
            trace := (w.trace ++ ((if cfg.cacheZoomImage then releaseEvents r.m_cache else [])
              ++ [Event.deletePDFDoc])) ++ [Event.deleteGlobalParams h] }
        else
          { w with sInstancesCount := w.sInstancesCount - 1,
                   trace := w.trace ++ ((if cfg.cacheZoomImage then releaseEvents r.m_cache
                     else []) ++ [Event.deletePDFDoc]) }
      | none =>
        { w with sInstancesCount := w.sInstancesCount - 1,
                 trace := w.trace ++ ((if cfg.cacheZoomImage then releaseEvents r.m_cache
                   else []) ++ [Event.deletePDFDoc]) } := by
  unfold destroy
  cases hmode : cfg.cacheZoomImage with
  | true =>
    cases hgp : w.globalParams with
    | none => simp [hdoc, releaseCache_world, World.emit, hgp]
    | some h =>
      by_cases hc : w.sInstancesCount - 1 = 0
      · simp [hdoc, releaseCache_world, World.emit, hgp, hc]
      · simp [hdoc, releaseCache_world, World.emit, hgp, hc]
  | false =>
    cases hgp : w.globalParams with
    | none => simp [hdoc, World.emit, hgp]
    | some h =>
      by_cases hc : w.sInstancesCount - 1 = 0
      · simp [hdoc, World.emit, hgp, hc]
      · simp [hdoc, World.emit, hgp, hc]

theorem destroy_events_neutral (cfg : Build) (r : Renderer) :
    ∀ e ∈ (if cfg.cacheZoomImage then releaseEvents r.m_cache else []) ++ [Event.deletePDFDoc],
      e.touchesGlobalParams = false := by
  intro e he
  rcases List.mem_append.mp he with h | h
  · cases hmode : cfg.cacheZoomImage with
    | true =>
      rw [hmode] at h
      exact releaseEvents_neutral r.m_cache e h
    | false =>
      rw [hmode] at h
      simp at h
  · simp at h
    subst h
    rfl

/-- The constructor keeps the life-cycle invariant; it creates `GlobalParams` exactly when
no renderer is alive. -/
theorem step_construct_inv (cfg : Build) (s : Sys) (raw : Renderer) (filename : String)
    (imp : Bool) (hinv : s.Inv) :
    ∃ s1 : Sys, step cfg s (Op.construct raw filename imp) = some s1 ∧ s1.Inv ∧
      s1.live.length = s.live.length + 1 ∧
      releasedGlobalParams s1.world.trace = releasedGlobalParams s.world.trace ∧
      createdGlobalParams s1.world.trace
        = createdGlobalParams s.world.trace + (if s.live.length = 0 then 1 else 0) := by
  obtain ⟨hcount, hdocs, halive, hgp, hbal⟩ := hinv
  refine ⟨{ world := (construct cfg raw filename imp s.world).2,
            live := s.live ++ [(construct cfg raw filename imp s.world).1] }, rfl, ?_, ?_, ?_, ?_⟩
  · refine ⟨?_, ?_, ?_, ?_, ?_⟩
    · simp only [construct_world]
      cases hg : s.world.globalParams <;> simp [hcount]
    · intro r hr
      rcases List.mem_append.mp hr with h | h
      · exact hdocs r h
      · simp at h
        subst h
        rw [construct_doc]
        simp
    · simp only [construct_world]
      cases hg : s.world.globalParams with
      | none =>
        rw [hg] at halive
        simp [aliveGlobalParams, List.foldl_append, aliveStep] at halive ⊢
        simp [halive]
      | some h =>
        rw [hg] at halive
        simp [aliveGlobalParams, List.foldl_append, aliveStep] at halive ⊢
        simp [halive]
    · simp only [construct_world]
      cases hg : s.world.globalParams <;> simp
    · simp only [construct_world]
      cases hg : s.world.globalParams with
      | none =>
        rw [hg] at hbal
        simp [createdGlobalParams, releasedGlobalParams, List.countP_append, List.countP_cons]
          at hbal ⊢
        omega
      | some h =>
        rw [hg] at hbal
        simp [createdGlobalParams, releasedGlobalParams, List.countP_append, List.countP_cons]
          at hbal ⊢
        omega
  · simp
  · simp only [construct_world]
    cases hg : s.world.globalParams <;>
      simp [releasedGlobalParams, List.countP_append, List.countP_cons]
  · simp only [construct_world]
    cases hg : s.world.globalParams with
    | none =>
      have hl : s.live = [] := by
        by_contra hne
        exact (hgp.mpr hne) hg
      simp [createdGlobalParams, List.countP_append, List.countP_cons, hl]
    | some h =>
      have hl : s.live ≠ [] := hgp.mp (by simp [hg])
      have hl2 : s.live.length ≠ 0 := fun h0 => hl (List.length_eq_zero.mp h0)
      simp [createdGlobalParams, List.countP_append, List.countP_cons, hl2]

theorem created_snoc_delete (t : List Event) (h : Nat) :
    createdGlobalParams (t ++ [Event.deleteGlobalParams h]) = createdGlobalParams t := by
  simp [createdGlobalParams, List.countP_append, List.countP_cons]

theorem released_snoc_delete (t : List Event) (h : Nat) :
    releasedGlobalParams (t ++ [Event.deleteGlobalParams h]) = releasedGlobalParams t + 1 := by
  simp [releasedGlobalParams, List.countP_append, List.countP_cons]

/-- The destructor of a live renderer keeps the life-cycle invariant; it releases
`GlobalParams` exactly when the renderer was the last one alive, and never creates any. -/
theorem step_destroy_inv (cfg : Build) (s : Sys) (i : Nat) (hinv : s.Inv)
    (hi : i < s.live.length) :
    ∃ s1 : Sys, step cfg s (Op.destroy i) = some s1 ∧ s1.Inv ∧
      s1.live.length = s.live.length - 1 ∧
      createdGlobalParams s1.world.trace = createdGlobalParams s.world.trace ∧
      releasedGlobalParams s1.world.trace
        = releasedGlobalParams s.world.trace + (if s.live.length = 1 then 1 else 0) := by
  obtain ⟨hcount, hdocs, halive, hgp, hbal⟩ := hinv
  have hget : s.live[i]? = some s.live[i] := List.getElem?_eq_getElem hi
  obtain ⟨d, hd⟩ := Option.ne_none_iff_exists.mp (hdocs s.live[i] (List.getElem_mem hi))
  have hne : s.live ≠ [] := by
    intro h0
    rw [h0] at hi
    simp at hi
  obtain ⟨h, hh⟩ := Option.ne_none_iff_exists.mp (hgp.mpr hne)
  have hneutral := destroy_events_neutral cfg s.live[i]
  have hlen : (s.live.eraseIdx i).length = s.live.length - 1 := by
    rw [List.length_eraseIdx]
    simp [hi]
  have hstep : step cfg s (Op.destroy i)
      = some { world := destroy cfg s.live[i] s.world, live := s.live.eraseIdx i } := by
    simp [step, hget]
  refine ⟨_, hstep, ?_, hlen, ?_, ?_⟩
  · refine ⟨?_, ?_, ?_, ?_, ?_⟩
    · show (destroy cfg s.live[i] s.world).sInstancesCount = ((s.live.eraseIdx i).length : Int)
      rw [destroy_world cfg _ _ d hd.symm, ← hh, hlen]
      by_cases hc : s.world.sInstancesCount - 1 = 0
      · simp only [hc, if_true]
        omega
      · simp only [hc, if_false]
        omega
    · intro r hr
      exact hdocs r ((List.eraseIdx_sublist s.live i).subset hr)
    · show aliveGlobalParams (destroy cfg s.live[i] s.world).trace
        = (destroy cfg s.live[i] s.world).globalParams.toList
      rw [destroy_world cfg _ _ d hd.symm, ← hh]
      rw [← hh] at halive
      by_cases hc : s.world.sInstancesCount - 1 = 0
      · simp only [hc, if_true]
        have h1 : aliveGlobalParams
            ((s.world.trace ++ ((if cfg.cacheZoomImage then releaseEvents s.live[i].m_cache
              else []) ++ [Event.deletePDFDoc])) ++ [Event.deleteGlobalParams h])
            = (aliveGlobalParams (s.world.trace ++ ((if cfg.cacheZoomImage then
                releaseEvents s.live[i].m_cache else []) ++ [Event.deletePDFDoc]))).erase h := by
          simp [aliveGlobalParams, List.foldl_append, aliveStep]
        rw [h1, alive_append_neutral _ _ hneutral, halive]
        simp
      · simp only [hc, if_false]
        rw [alive_append_neutral _ _ hneutral, halive]
    · show (destroy cfg s.live[i] s.world).globalParams ≠ none ↔ s.live.eraseIdx i ≠ []
      rw [destroy_world cfg _ _ d hd.symm, ← hh]
      by_cases hc : s.world.sInstancesCount - 1 = 0
      · simp only [hc, if_true]
        have h0 : (s.live.eraseIdx i).length = 0 := by
          rw [hlen]
          omega
        simp [List.length_eq_zero.mp h0]
      · simp only [hc, if_false]
        have h0 : (s.live.eraseIdx i).length ≠ 0 := by
          rw [hlen]
          omega
        have h1 : s.live.eraseIdx i ≠ [] := fun h2 => h0 (by rw [h2]; rfl)
        simp [hh.symm, h1]
    · show createdGlobalParams (destroy cfg s.live[i] s.world).trace
        = releasedGlobalParams (destroy cfg s.live[i] s.world).trace
          + (destroy cfg s.live[i] s.world).globalParams.toList.length
      rw [destroy_world cfg _ _ d hd.symm, ← hh]
      rw [← hh] at hbal
      by_cases hc : s.world.sInstancesCount - 1 = 0
      · simp only [hc, if_true]
        rw [created_snoc_delete, released_snoc_delete, created_append_neutral _ _ hneutral,
          released_append_neutral _ _ hneutral, hbal]
        simp
      · simp only [hc, if_false]
        rw [created_append_neutral _ _ hneutral, released_append_neutral _ _ hneutral]
        exact hbal
  · show createdGlobalParams (destroy cfg s.live[i] s.world).trace = _
    rw [destroy_world cfg _ _ d hd.symm, ← hh]
    by_cases hc : s.world.sInstancesCount - 1 = 0
    · simp only [hc, if_true]
      rw [created_snoc_delete, created_append_neutral _ _ hneutral]
    · simp only [hc, if_false]
      rw [created_append_neutral _ _ hneutral]
  · show releasedGlobalParams (destroy cfg s.live[i] s.world).trace = _
    rw [destroy_world cfg _ _ d hd.symm, ← hh]
    by_cases hc : s.world.sInstancesCount - 1 = 0
    · have hl : s.live.length = 1 := by omega
      simp only [hc, if_true, hl]
      rw [released_snoc_delete, released_append_neutral _ _ hneutral]
    · have hl : s.live.length ≠ 1 := by omega
      simp only [hc, if_false, hl]
      rw [released_append_neutral _ _ hneutral]
      simp

theorem initial_inv : Sys.initial.Inv := by
  refine ⟨rfl, ?_, rfl, ?_, rfl⟩
  · intro r hr
    cases hr
  · simp [Sys.initial]

theorem step_some_inv (cfg : Build) (s s1 : Sys) (op : Op) (hinv : s.Inv)
    (hstep : step cfg s op = some s1) : s1.Inv := by
  cases op with
  | construct raw filename imp =>
    obtain ⟨s2, h2, hinv2, _⟩ := step_construct_inv cfg s raw filename imp hinv
    rw [hstep] at h2
    cases h2
    exact hinv2
  | destroy i =>
    have hi : i < s.live.length := by
      rcases Nat.lt_or_ge i s.live.length with h | h
      · exact h
      · simp [step, List.getElem?_eq_none h] at hstep
    obtain ⟨s2, h2, hinv2, _⟩ := step_destroy_inv cfg s i hinv hi
    rw [hstep] at h2
    cases h2
    exact hinv2

/-- Every state reached by a history from a state with the invariant has the invariant. -/
theorem run_inv (cfg : Build) :
    ∀ (ops : List Op) (s s1 : Sys), s.Inv → run cfg s ops = some s1 → s1.Inv := by
  intro ops
  induction ops with
  | nil =>
    intro s s1 hinv hrun
    simp [run] at hrun
    subst hrun
    exact hinv
  | cons op rest ih =>
    intro s s1 hinv hrun
    cases hstep : step cfg s op with
    | none => simp [run, hstep] at hrun
    | some s2 =>
      simp only [run, hstep] at hrun
      exact ih s2 s1 (step_some_inv cfg s s2 op hinv hstep) hrun

theorem run_append (cfg : Build) :
    ∀ (a b : List Op) (s : Sys),
      run cfg s (a ++ b) = (run cfg s a).bind (fun s1 => run cfg s1 b) := by
  intro a
  induction a with
  | nil =>
    intro b s
    simp [run]
  | cons op rest ih =>
    intro b s
    cases hstep : step cfg s op with
    | none => simp [run, hstep]
    | some s2 => simp [run, hstep, ih]

/-- A run of constructions always succeeds; it creates `GlobalParams` once if it starts
with no renderer alive and constructs at least one, and not at all otherwise. -/
theorem run_constructAll (cfg : Build) :
    ∀ (cs : List (Renderer × String × Bool)) (s : Sys), s.Inv →
      ∃ s1 : Sys, run cfg s (constructAll cs) = some s1 ∧ s1.Inv ∧
        s1.live.length = s.live.length + cs.length ∧
        createdGlobalParams s1.world.trace = createdGlobalParams s.world.trace +
          (if s.live.length = 0 ∧ cs.length ≠ 0 then 1 else 0) := by
  intro cs
  induction cs with
  | nil =>
    intro s hinv
    exact ⟨s, rfl, hinv, rfl, by simp⟩
  | cons c rest ih =>
    intro s hinv
    obtain ⟨s2, hstep, hinv2, hlen2, _, hcr2⟩ := step_construct_inv cfg s c.1 c.2.1 c.2.2 hinv
    obtain ⟨s1, hrun, hinv1, hlen1, hcr1⟩ := ih s2 hinv2
    refine ⟨s1, ?_, hinv1, ?_, ?_⟩
    · simp only [constructAll, List.map_cons, run, hstep]
      exact hrun
    · rw [hlen1, hlen2]
      simp only [List.length_cons]
      omega
    · rw [hcr1, hcr2]
      have h0 : ¬ (s2.live.length = 0 ∧ rest.length ≠ 0) := by
        intro h
        omega
      rw [if_neg h0]
      by_cases hl : s.live.length = 0
      · simp [hl]
      · simp [hl]

/-- A run of destructions in a valid order succeeds and never creates `GlobalParams`. -/
theorem run_destroyAll (cfg : Build) :
    ∀ (ds : List Nat) (s : Sys), s.Inv → validDestroyOrder s.live.length ds = true →
      ∃ s1 : Sys, run cfg s (destroyAll ds) = some s1 ∧ s1.Inv ∧
        s1.live.length = s.live.length - ds.length ∧
        createdGlobalParams s1.world.trace = createdGlobalParams s.world.trace := by
  intro ds
  induction ds with
  | nil =>
    intro s hinv _
    exact ⟨s, rfl, hinv, rfl, rfl⟩
  | cons i rest ih =>
    intro s hinv horder
    simp only [validDestroyOrder, Bool.and_eq_true, decide_eq_true_eq] at horder
    obtain ⟨hi, hrest⟩ := horder
    obtain ⟨s2, hstep, hinv2, hlen2, hcr2, _⟩ := step_destroy_inv cfg s i hinv hi
    rw [← hlen2] at hrest
    obtain ⟨s1, hrun, hinv1, hlen1, hcr1⟩ := ih s2 hinv2 hrest
    refine ⟨s1, ?_, hinv1, ?_, ?_⟩
    · simp only [destroyAll, List.map_cons, run, hstep]
      exact hrun
    · rw [hlen1, hlen2]
      simp only [List.length_cons]
      omega
    · rw [hcr1, hcr2]

/-- C4. Instance-count life cycle. Start from the process state with no live renderer and
no `globalParams`. Construct `N >= 1` renderers (any constructor arguments), then destroy
all `N` of them in any order (`ds` names, step by step, which of the renderers still alive
is destroyed next). The whole history runs, the shared `GlobalParams` object is created once
and released exactly once, and at the end the live-instance counter is 0, `globalParams` is
null, no `GlobalParams` object exists and no renderer is alive. -/
theorem construct_then_destroy_all_releases_once (cfg : Build)
    (cs : List (Renderer × String × Bool)) (ds : List Nat)
    (hN : 1 ≤ cs.length) (hall : ds.length = cs.length)
    (horder : validDestroyOrder cs.length ds = true) :
    ∃ s : Sys, run cfg Sys.initial (constructAll cs ++ destroyAll ds) = some s ∧
      releasedGlobalParams s.world.trace = 1 ∧
      createdGlobalParams s.world.trace = 1 ∧
      s.world.sInstancesCount = 0 ∧
      s.world.globalParams = none ∧
      aliveGlobalParams s.world.trace = [] ∧
      s.live.length = 0 := by
  obtain ⟨s1, hrun1, hinv1, hlen1, hcr1⟩ := run_constructAll cfg cs Sys.initial initial_inv
  have hlen1b : s1.live.length = cs.length := by
    rw [hlen1]
    simp [Sys.initial]
  rw [← hlen1b] at horder
  obtain ⟨s2, hrun2, hinv2, hlen2, hcr2⟩ := run_destroyAll cfg ds s1 hinv1 horder
  have hlive : s2.live.length = 0 := by
    rw [hlen2, hlen1b, hall]
    omega
  have hnil : s2.live = [] := List.length_eq_zero.mp hlive
  obtain ⟨hcount, _, halive, hgp, hbal⟩ := hinv2
  have hnone : s2.world.globalParams = none := by
    by_contra hne
    exact (hgp.mp hne) hnil
  have hcreated : createdGlobalParams s2.world.trace = 1 := by
    rw [hcr2, hcr1]
    have h0 : (Sys.initial.live.length = 0 ∧ cs.length ≠ 0) := ⟨rfl, by omega⟩
    rw [if_pos h0]
    rfl
  refine ⟨s2, ?_, ?_, hcreated, ?_, hnone, ?_, hlive⟩
  · rw [run_append, hrun1]
    exact hrun2
  · rw [hnone] at hbal
    simp at hbal
    rw [← hbal]
    exact hcreated
  · rw [hcount, hlive]
    rfl
  · rw [halive, hnone]
    rfl

/-- C4 on three renderers destroyed in the order second, third, first. -/
theorem construct_then_destroy_all_releases_once_witness :
    ∃ s : Sys,
      run sampleBuild Sys.initial (constructAll threeRenderers ++ destroyAll [1, 1, 0]) = some s ∧
      releasedGlobalParams s.world.trace = 1 ∧
      createdGlobalParams s.world.trace = 1 ∧
      s.world.sInstancesCount = 0 ∧
      s.world.globalParams = none ∧
      aliveGlobalParams s.world.trace = [] ∧
      s.live.length = 0 :=
  construct_then_destroy_all_releases_once sampleBuild threeRenderers [1, 1, 0] (by decide)
    (by decide) (by decide)

/-- C5. Invariant of `globalParams` over every sequential history of constructions and
destructions of live renderers, from the process state with no renderer. In every state
`s` such a history reaches: at most one `GlobalParams` object exists, and it is the one
`globalParams` points to; the counter equals the number of live renderers; whenever the
counter is above 0 a `GlobalParams` object exists; and a construction performed while the
counter is above 0 creates no `GlobalParams` object and leaves `globalParams` as it is. -/
theorem globalParams_invariant (cfg : Build) (ops : List Op) (s : Sys)
    (hrun : run cfg Sys.initial ops = some s) :
    (aliveGlobalParams s.world.trace).length ≤ 1 ∧
    aliveGlobalParams s.world.trace = s.world.globalParams.toList ∧
    s.world.sInstancesCount = (s.live.length : Int) ∧
    (0 < s.world.sInstancesCount →
      s.world.globalParams ≠ none ∧ (aliveGlobalParams s.world.trace).length = 1) ∧
    (∀ (raw : Renderer) (filename : String) (importingFile : Bool),
      0 < s.world.sInstancesCount →
        createdGlobalParams (construct cfg raw filename importingFile s.world).2.trace
          = createdGlobalParams s.world.trace ∧
        (construct cfg raw filename importingFile s.world).2.globalParams
          = s.world.globalParams) := by
  have hinv := run_inv cfg ops Sys.initial s initial_inv hrun
  obtain ⟨hcount, _, halive, hgp, _⟩ := hinv
  have hpos : 0 < s.world.sInstancesCount → s.world.globalParams ≠ none := by
    intro h
    apply hgp.mpr
    intro hnil
    rw [hcount, hnil] at h
    simp at h
  refine ⟨?_, halive, hcount, ?_, ?_⟩
  · rw [halive]
    cases s.world.globalParams <;> simp
  · intro h
    refine ⟨hpos h, ?_⟩
    rw [halive]
    obtain ⟨g, hg⟩ := Option.ne_none_iff_exists.mp (hpos h)
    rw [← hg]
    rfl
  · intro raw filename imp h
    obtain ⟨g, hg⟩ := Option.ne_none_iff_exists.mp (hpos h)
    rw [construct_world, ← hg]
    simp [createdGlobalParams, List.countP_append, List.countP_cons]

/-- C5 on `sampleHistory`: the state it reaches has one live renderer and one
`GlobalParams` object, and one more construction creates none. -/
theorem globalParams_invariant_witness :
    ∃ s : Sys, run sampleBuild Sys.initial sampleHistory = some s ∧
      s.live.length = 1 ∧
      ((aliveGlobalParams s.world.trace).length ≤ 1 ∧
      aliveGlobalParams s.world.trace = s.world.globalParams.toList ∧
      s.world.sInstancesCount = (s.live.length : Int) ∧
      (0 < s.world.sInstancesCount →
        s.world.globalParams ≠ none ∧ (aliveGlobalParams s.world.trace).length = 1) ∧
      (∀ (raw : Renderer) (filename : String) (importingFile : Bool),
        0 < s.world.sInstancesCount →
          createdGlobalParams (construct sampleBuild raw filename importingFile s.world).2.trace
            = createdGlobalParams s.world.trace ∧
          (construct sampleBuild raw filename importingFile s.world).2.globalParams
            = s.world.globalParams)) := by
  obtain ⟨s, hs, hl⟩ : ∃ s : Sys, run sampleBuild Sys.initial sampleHistory = some s ∧
      s.live.length = 1 := ⟨_, rfl, rfl⟩
  exact ⟨s, hs, hl, globalParams_invariant sampleBuild sampleHistory s hs⟩

end XPDFRenderer
